import Mathlib

/-
Verification of the RC-car data logger `PanopticBEV/deploy_car/pic_take.py`.

The program is a single-threaded acquisition loop with two camera backends
(`picamera2_loop`, `opencv_loop`) wrapped by `main`.  We embed it shallowly:
wall-clock readings and capture results are supplied by an environment
(`Env` / `Cycle`, one `Cycle` per iteration of the `while True` loop), and a
run is modelled as the list of observable effects (`Ev`) the program performs,
in program order, together with how the run ends (`Outcome`).

Machine floats are modelled as `ℚ`; none of the verified properties depend on
rounding.  A `KeyboardInterrupt` is asynchronous in Python; we model its
delivery at the top of a loop iteration (`Cycle.interrupt`), which suffices
for the control-flow properties below.
-/

namespace PicTake

/-- A captured image: pixel dimensions plus an abstract content identifier
(the pixel data itself plays no role in any property). -/
structure Frame where
  width : Nat
  height : Nat
  pixels : Nat
deriving DecidableEq, Repr

/-- The environment's answers for one iteration of the `while True` loop:
whether a `KeyboardInterrupt` is delivered at the top of the iteration,
the value of `time.time()` at the loop head (`t = time.time()`), the result
of the capture call (`none` = the read fails: `cap.read()` returns
`ok = False`, resp. `cam.capture_array()` raises), and the value of
`time.time()` after the frame and metadata writes (`dt = time.time() - t`). -/
structure Cycle where
  interrupt : Bool
  t : ℚ
  capture : Option Frame
  tAfter : ℚ
deriving DecidableEq, Repr

/-- The whole environment of one run: whether the camera device opens
(`Picamera2()/configure/start` succeed, resp. `cap.isOpened()`), the value of
`t0 = time.time()`, and the per-iteration oracle. -/
structure Env where
  deviceOpens : Bool
  t0 : ℚ
  cycles : List Cycle
deriving DecidableEq, Repr

/-- Zero-pad a number to at least six digits: Python's `f"{i:06d}"`. -/
def pad6 (n : Nat) : String :=
  let s := toString n
  String.mk (List.replicate (6 - s.length) '0') ++ s

/-- Zero-pad to two digits, as in `isoformat` date/time components. -/
def pad2 (n : Nat) : String :=
  if n < 10 then "0" ++ toString n else toString n

/-- Civil date from a count of days since 1970-01-01 (proleptic Gregorian),
as used by CPython's date arithmetic: returns (year, month, day). -/
def civilFromDays (z0 : ℤ) : ℤ × ℤ × ℤ :=
  let z := z0 + 719468
  let era : ℤ := (if 0 ≤ z then z else z - 146096).ediv 146097
  let doe : ℤ := z - era * 146097
  let yoe : ℤ := (doe - doe.ediv 1460 + doe.ediv 36524 - doe.ediv 146096).ediv 365
  let y : ℤ := yoe + era * 400
  let doy : ℤ := doe - (365 * yoe + yoe.ediv 4 - yoe.ediv 100)
  let mp : ℤ := (5 * doy + 2).ediv 153
  let d : ℤ := doy - (153 * mp + 2).ediv 5 + 1
  let m : ℤ := mp + (if mp < 10 then 3 else -9)
  (y + (if m ≤ 2 then 1 else 0), m, d)

/-- Model of `datetime.fromtimestamp(t).isoformat()` for a timestamp in
seconds.  `fromtimestamp` uses the local timezone; we model the timezone as
UTC (offset 0), and sub-second digits by truncation to microseconds; the
verified claims only use that this string is a function of the timestamp. -/
def isoOfTimestamp (t : ℚ) : String :=
  let total : ℤ := ⌊t⌋
  let micro : ℤ := ⌊(t - (total : ℚ)) * 1000000⌋
  let sod : ℤ := total.emod 86400
  let days : ℤ := (total - sod).ediv 86400
  let ymd := civilFromDays days
  let hh := (sod.ediv 3600).toNat
  let mm := ((sod.emod 3600).ediv 60).toNat
  let ss := (sod.emod 60).toNat
  let date := toString ymd.1 ++ "-" ++ pad2 ymd.2.1.toNat ++ "-" ++ pad2 ymd.2.2.toNat
  let tod := pad2 hh ++ ":" ++ pad2 mm ++ ":" ++ pad2 ss
  let base := date ++ "T" ++ tod
  if micro = 0 then base else base ++ "." ++ pad6 micro.toNat

/-- One line of `meta.jsonl`, as the dict literal built in the source. -/
structure Record where
  idx : Nat
  file : String
  timestamp_unix : ℚ
  timestamp_iso : String
  width : Nat
  height : Nat
deriving DecidableEq, Repr

/-- A JSON scalar, as serialized by `json.dumps` for this program's dicts. -/
inductive JVal where
  | jnum (n : Nat)
  | jrat (q : ℚ)
  | jstr (s : String)
deriving DecidableEq, Repr

/-- The key/value pairs of the serialized record, in the dict-literal order
of the source (`json.dumps` keeps insertion order). -/
def Record.jsonFields (r : Record) : List (String × JVal) :=
  [("idx", .jnum r.idx), ("file", .jstr r.file),
   ("timestamp_unix", .jrat r.timestamp_unix),
   ("timestamp_iso", .jstr r.timestamp_iso),
   ("width", .jnum r.width), ("height", .jnum r.height)]

/-- Render one JSON scalar.  The rational rendering is a model of Python's
float `repr`; no verified property depends on the digits produced. -/
def JVal.render : JVal → String
  | .jnum n => toString n
  | .jrat q => toString q
  | .jstr s => "\"" ++ s ++ "\""

/-- Render one metadata line, modelling `json.dumps(rec)`. -/
def renderRecord (r : Record) : String :=
  "\x7b" ++ String.intercalate ", "
      (r.jsonFields.map (fun p => "\"" ++ p.1 ++ "\": " ++ p.2.render))
    ++ "\x7d"

/-- Observable effects of a run, in program order. -/
inductive Ev where
  | ensureDir (d : String)
  | writeHeader
  | openCamera
  | requestResolution (w h : Nat)
  | openMeta (mode : String)
  | captureAttempt (t : ℚ)
  | durationBreak (t : ℚ)
  | writeFrame (name : String)
  | writeMeta (r : Record)
  | flush
  | sleep (d : ℚ)
  | log (s : String)
  | closeMeta
  | release
deriving DecidableEq, Repr

/-- How the body of a loop ends. -/
inductive LoopExit where
  | brokeDuration
  | brokeCapture
  | captureExn
  | interrupted
  | running
deriving DecidableEq, Repr

/-- How a whole call (loop function or `main`) ends.  `finished` = returned
normally; the exception constructors name the propagating Python exception;
`running` = the per-iteration oracle was exhausted with the loop still
going (the unbounded-run case). -/
inductive Outcome where
  | finished
  | deviceUnavailable
  | divByZero
  | interrupted
  | captureExn
  | running
deriving DecidableEq, Repr

/-- The frame file name `f"{i:06d}.png"`. -/
def fname (i : Nat) : String := pad6 i ++ ".png"

/-- The record built at lines 65-74 of the source (Picamera2 variant):
`width`/`height` are the *configured* dimensions. -/
def mkRecordPi (width height : Nat) (i : Nat) (t : ℚ) : Record :=
  { idx := i, file := "frames/" ++ fname i, timestamp_unix := t,
    timestamp_iso := isoOfTimestamp t, width := width, height := height }

/-- The record built at lines 122-130 of the source (OpenCV variant):
`width`/`height` are read back from the captured frame (`frame_bgr.shape`). -/
def mkRecordCv (i : Nat) (t : ℚ) (fr : Frame) : Record :=
  { idx := i, file := "frames/" ++ fname i, timestamp_unix := t,
    timestamp_iso := isoOfTimestamp t, width := fr.width, height := fr.height }

/-- The `while True` loop of `opencv_loop` (source lines 108-136), with the
loop counter `i` and one `Cycle` per iteration.  `period` is the value
computed at line 103. -/
def cvLoopAux (seconds period t0 : ℚ) : Nat → List Cycle → List Ev × LoopExit
  | _, [] => ([], .running)
  | i, c :: rest =>
    if c.interrupt then ([], .interrupted)
    else if 0 < seconds ∧ c.t - t0 ≥ seconds then
      ([.durationBreak c.t], .brokeDuration)
    else
      match c.capture with
      | none => ([.captureAttempt c.t, .log "Frame read failed, stopping."], .brokeCapture)
      | some fr =>
        let r := cvLoopAux seconds period t0 (i + 1) rest
        (.captureAttempt c.t :: .writeFrame (fname i) ::
           .writeMeta (mkRecordCv i c.t fr) :: .flush ::
           .sleep (max 0 (period - (c.tAfter - c.t))) :: r.1, r.2)

/-- The `while True` loop of `picamera2_loop` (source lines 51-83).  A failed
`cam.capture_array()` raises, so there is no diagnostic and no graceful
break: the exception propagates (`LoopExit.captureExn`). -/
def piLoopAux (width height : Nat) (seconds period t0 : ℚ) :
    Nat → List Cycle → List Ev × LoopExit
  | _, [] => ([], .running)
  | i, c :: rest =>
    if c.interrupt then ([], .interrupted)
    else if 0 < seconds ∧ c.t - t0 ≥ seconds then
      ([.durationBreak c.t], .brokeDuration)
    else
      match c.capture with
      | none => ([.captureAttempt c.t], .captureExn)
      | some _ =>
        let r := piLoopAux width height seconds period t0 (i + 1) rest
        (.captureAttempt c.t :: .writeFrame (fname i) ::
           .writeMeta (mkRecordPi width height i c.t) :: .flush ::
           .sleep (max 0 (period - (c.tAfter - c.t))) :: r.1, r.2)

/-- Events performed after the `while` loop, per exit kind.  Both variants
call their release (`cam.stop()` line 85 / `cap.release()` line 138) only on
the fall-through path after a `break`; when an exception propagates, the
`with open(...)` block still closes the metadata file but the release line
is never reached. -/
def exitTail : LoopExit → List Ev
  | .brokeDuration => [.closeMeta, .release]
  | .brokeCapture => [.closeMeta, .release]
  | .interrupted => [.closeMeta]
  | .captureExn => [.closeMeta]
  | .running => []

/-- The outcome of the loop function per loop-exit kind: a `break` leads to a
normal return, exceptions propagate. -/
def exitOutcome : LoopExit → Outcome
  | .brokeDuration => .finished
  | .brokeCapture => .finished
  | .interrupted => .interrupted
  | .captureExn => .captureExn
  | .running => .running

/-- `opencv_loop(out_dir, fps, device, width, height, seconds)`, source lines
87-138.  The output directory and device index only select I/O targets that
the event model abstracts; the device's availability is `env.deviceOpens`.
`period = 1.0 / fps` (line 103) raises `ZeroDivisionError` when `fps = 0`,
after the device was opened but before `meta.jsonl` is opened. -/
def opencv_loop (fps : ℚ) (width height : Nat) (seconds : ℚ) (env : Env) :
    List Ev × Outcome :=
  if env.deviceOpens then
    if fps = 0 then
      ([.ensureDir "frames", .openCamera, .requestResolution width height], .divByZero)
    else
      let r := cvLoopAux seconds (1 / fps) env.t0 0 env.cycles
      (([.ensureDir "frames", .openCamera, .requestResolution width height,
          .openMeta "a"] ++ r.1) ++ exitTail r.2, exitOutcome r.2)
  else
    ([.ensureDir "frames"], .deviceUnavailable)

/-- `picamera2_loop(out_dir, fps, width, height, seconds)`, source lines
30-85.  `period = 1.0 / fps` (line 46) is computed after `cam.start()`. -/
def picamera2_loop (fps : ℚ) (width height : Nat) (seconds : ℚ) (env : Env) :
    List Ev × Outcome :=
  if env.deviceOpens then
    if fps = 0 then
      ([.ensureDir "frames", .openCamera], .divByZero)
    else
      let r := piLoopAux width height seconds (1 / fps) env.t0 0 env.cycles
      (([.ensureDir "frames", .openCamera, .openMeta "a"] ++ r.1) ++ exitTail r.2,
       exitOutcome r.2)
  else
    ([.ensureDir "frames"], .deviceUnavailable)

/-- Backend selector (`--backend`). -/
inductive Backend where
  | picam
  | opencv
deriving DecidableEq, Repr

/-- `main()`, source lines 140-176: create the output directory, write
`run_header.json`, run the selected loop; `except KeyboardInterrupt` turns an
interrupt into a normal completion, the `finally` print runs on every path,
and any other exception re-raises after it. -/
def main (backend : Backend) (fps : ℚ) (width height : Nat) (seconds : ℚ)
    (env : Env) : List Ev × Outcome :=
  let r := match backend with
    | .picam => picamera2_loop fps width height seconds env
    | .opencv => opencv_loop fps width height seconds env
  match r.2 with
  | .interrupted =>
    ((.ensureDir "out" :: .writeHeader :: r.1) ++
       [.log "Stopped by user (Ctrl+C).", .log "Saved frames under: out"], .finished)
  | o =>
    ((.ensureDir "out" :: .writeHeader :: r.1) ++ [.log "Saved frames under: out"], o)

/-- The metadata records appended during a run, in order. -/
def recordsOf (evs : List Ev) : List Record :=
  evs.filterMap fun e => match e with
    | .writeMeta r => some r
    | _ => none

/-- The frame files written during a run, in order (names inside `frames/`). -/
def frameFilesOf (evs : List Ev) : List String :=
  evs.filterMap fun e => match e with
    | .writeFrame n => some n
    | _ => none

/-- The cycle-start times of all capture attempts, in order. -/
def attemptsOf (evs : List Ev) : List ℚ :=
  evs.filterMap fun e => match e with
    | .captureAttempt t => some t
    | _ => none

/-- The events that create or extend files in the output directory. -/
def fileWrites (evs : List Ev) : List Ev :=
  evs.filter fun e => match e with
    | .writeHeader => true
    | .writeFrame _ => true
    | .writeMeta _ => true
    | _ => false

/-- Effect of one event on the contents (list of lines) of `meta.jsonl`:
opening with mode "w" would truncate, mode "a" keeps the existing lines; a
metadata write appends one rendered line. -/
def metaStep (acc : List String) (e : Ev) : List String :=
  match e with
  | .openMeta mode => if mode = "w" then [] else acc
  | .writeMeta r => acc ++ [renderRecord r]
  | _ => acc

/-- Contents of `meta.jsonl` after a run, starting from the lines `prior`
that the file held before the run. -/
def metaLines (prior : List String) (evs : List Ev) : List String :=
  evs.foldl metaStep prior

/-- `true` iff every metadata write is immediately followed by a flush. -/
def flushFollowsWrite : List Ev → Bool
  | [] => true
  | .writeMeta _ :: rest =>
    (match rest with
     | .flush :: _ => true
     | _ => false) && flushFollowsWrite rest
  | _ :: rest => flushFollowsWrite rest

/-- The five events of one successful iteration of the OpenCV loop, in
source order: capture, save the PNG, append the record, flush, sleep. -/
def cycleEvsCv (period : ℚ) (i : Nat) (c : Cycle) (fr : Frame) : List Ev :=
  [.captureAttempt c.t, .writeFrame (fname i), .writeMeta (mkRecordCv i c.t fr),
   .flush, .sleep (max 0 (period - (c.tAfter - c.t)))]

/-- The five events of one successful iteration of the Picamera2 loop. -/
def cycleEvsPi (width height : Nat) (period : ℚ) (i : Nat) (c : Cycle) : List Ev :=
  [.captureAttempt c.t, .writeFrame (fname i), .writeMeta (mkRecordPi width height i c.t),
   .flush, .sleep (max 0 (period - (c.tAfter - c.t)))]

/-- A cycle the loop runs to completion: no interrupt, the duration guard
does not fire, and the capture succeeds. -/
def goodCycle (seconds t0 : ℚ) (c : Cycle) : Prop :=
  c.interrupt = false ∧ ¬(0 < seconds ∧ c.t - t0 ≥ seconds) ∧ c.capture.isSome = true

instance (seconds t0 : ℚ) (c : Cycle) : Decidable (goodCycle seconds t0 c) := by
  unfold goodCycle
  infer_instance

/-- Events of a list of successful OpenCV iterations starting at index `i`. -/
def goodsEvsCv (period : ℚ) : Nat → List Cycle → List Ev
  | _, [] => []
  | i, c :: cs =>
    cycleEvsCv period i c (c.capture.getD ⟨0, 0, 0⟩) ++ goodsEvsCv period (i + 1) cs

/-- Events of a list of successful Picamera2 iterations starting at `i`. -/
def goodsEvsPi (width height : Nat) (period : ℚ) : Nat → List Cycle → List Ev
  | _, [] => []
  | i, c :: cs =>
    cycleEvsPi width height period i c ++ goodsEvsPi width height period (i + 1) cs

/- ### Unfolding lemmas for the two loops -/

theorem cvLoopAux_cons_good (s p t0 : ℚ) (i : Nat) (c : Cycle) (rest : List Cycle)
    (fr : Frame) (h1 : c.interrupt = false) (h2 : ¬(0 < s ∧ c.t - t0 ≥ s))
    (h3 : c.capture = some fr) :
    cvLoopAux s p t0 i (c :: rest)
      = (cycleEvsCv p i c fr ++ (cvLoopAux s p t0 (i + 1) rest).1,
         (cvLoopAux s p t0 (i + 1) rest).2) := by
  simp [cvLoopAux, h1, h3, if_neg h2, cycleEvsCv]

theorem cvLoopAux_cons_fail (s p t0 : ℚ) (i : Nat) (c : Cycle) (rest : List Cycle)
    (h1 : c.interrupt = false) (h2 : ¬(0 < s ∧ c.t - t0 ≥ s)) (h3 : c.capture = none) :
    cvLoopAux s p t0 i (c :: rest)
      = ([.captureAttempt c.t, .log "Frame read failed, stopping."], .brokeCapture) := by
  simp [cvLoopAux, h1, h3, if_neg h2]

theorem cvLoopAux_cons_break (s p t0 : ℚ) (i : Nat) (c : Cycle) (rest : List Cycle)
    (h1 : c.interrupt = false) (h2 : 0 < s ∧ c.t - t0 ≥ s) :
    cvLoopAux s p t0 i (c :: rest) = ([.durationBreak c.t], .brokeDuration) := by
  simp [cvLoopAux, h1, if_pos h2]

theorem cvLoopAux_cons_interrupt (s p t0 : ℚ) (i : Nat) (c : Cycle) (rest : List Cycle)
    (h1 : c.interrupt = true) :
    cvLoopAux s p t0 i (c :: rest) = ([], .interrupted) := by
  simp [cvLoopAux, h1]

theorem piLoopAux_cons_good (w h : Nat) (s p t0 : ℚ) (i : Nat) (c : Cycle)
    (rest : List Cycle) (fr : Frame) (h1 : c.interrupt = false)
    (h2 : ¬(0 < s ∧ c.t - t0 ≥ s)) (h3 : c.capture = some fr) :
    piLoopAux w h s p t0 i (c :: rest)
      = (cycleEvsPi w h p i c ++ (piLoopAux w h s p t0 (i + 1) rest).1,
         (piLoopAux w h s p t0 (i + 1) rest).2) := by
  simp [piLoopAux, h1, h3, if_neg h2, cycleEvsPi]

theorem piLoopAux_cons_fail (w h : Nat) (s p t0 : ℚ) (i : Nat) (c : Cycle)
    (rest : List Cycle) (h1 : c.interrupt = false) (h2 : ¬(0 < s ∧ c.t - t0 ≥ s))
    (h3 : c.capture = none) :
    piLoopAux w h s p t0 i (c :: rest) = ([.captureAttempt c.t], .captureExn) := by
  simp [piLoopAux, h1, h3, if_neg h2]

theorem piLoopAux_cons_break (w h : Nat) (s p t0 : ℚ) (i : Nat) (c : Cycle)
    (rest : List Cycle) (h1 : c.interrupt = false) (h2 : 0 < s ∧ c.t - t0 ≥ s) :
    piLoopAux w h s p t0 i (c :: rest) = ([.durationBreak c.t], .brokeDuration) := by
  simp [piLoopAux, h1, if_pos h2]

theorem piLoopAux_cons_interrupt (w h : Nat) (s p t0 : ℚ) (i : Nat) (c : Cycle)
    (rest : List Cycle) (h1 : c.interrupt = true) :
    piLoopAux w h s p t0 i (c :: rest) = ([], .interrupted) := by
  simp [piLoopAux, h1]

/- ### Projections of event lists -/

theorem recordsOf_nil : recordsOf [] = [] := rfl

theorem recordsOf_append (l1 l2 : List Ev) :
    recordsOf (l1 ++ l2) = recordsOf l1 ++ recordsOf l2 :=
  List.filterMap_append l1 l2 _

theorem frameFilesOf_append (l1 l2 : List Ev) :
    frameFilesOf (l1 ++ l2) = frameFilesOf l1 ++ frameFilesOf l2 :=
  List.filterMap_append l1 l2 _

theorem attemptsOf_append (l1 l2 : List Ev) :
    attemptsOf (l1 ++ l2) = attemptsOf l1 ++ attemptsOf l2 :=
  List.filterMap_append l1 l2 _

theorem recordsOf_cycleEvsCv (p : ℚ) (i : Nat) (c : Cycle) (fr : Frame) :
    recordsOf (cycleEvsCv p i c fr) = [mkRecordCv i c.t fr] := rfl

theorem recordsOf_cycleEvsPi (w h : Nat) (p : ℚ) (i : Nat) (c : Cycle) :
    recordsOf (cycleEvsPi w h p i c) = [mkRecordPi w h i c.t] := rfl

theorem frameFilesOf_cycleEvsCv (p : ℚ) (i : Nat) (c : Cycle) (fr : Frame) :
    frameFilesOf (cycleEvsCv p i c fr) = [fname i] := rfl

theorem frameFilesOf_cycleEvsPi (w h : Nat) (p : ℚ) (i : Nat) (c : Cycle) :
    frameFilesOf (cycleEvsPi w h p i c) = [fname i] := rfl

theorem attemptsOf_cycleEvsCv (p : ℚ) (i : Nat) (c : Cycle) (fr : Frame) :
    attemptsOf (cycleEvsCv p i c fr) = [c.t] := rfl

theorem attemptsOf_cycleEvsPi (w h : Nat) (p : ℚ) (i : Nat) (c : Cycle) :
    attemptsOf (cycleEvsPi w h p i c) = [c.t] := rfl

/- ### Indices and file names of the records of a run (C4 core) -/

theorem cvLoopAux_records_get (s p t0 : ℚ) :
    ∀ (cycles : List Cycle) (i k : Nat) (r : Record),
      (recordsOf (cvLoopAux s p t0 i cycles).1).get? k = some r →
      r.idx = i + k ∧ r.file = "frames/" ++ fname (i + k) := by
  intro cycles
  induction cycles with
  | nil => intro i k r hr; simp [cvLoopAux, recordsOf] at hr
  | cons c rest ih =>
    intro i k r hr
    cases h1 : c.interrupt with
    | true =>
      rw [cvLoopAux_cons_interrupt s p t0 i c rest h1] at hr
      simp [recordsOf] at hr
    | false =>
      by_cases h2 : (0 < s ∧ c.t - t0 ≥ s)
      · rw [cvLoopAux_cons_break s p t0 i c rest h1 h2] at hr
        simp [recordsOf] at hr
      · cases h3 : c.capture with
        | none =>
          rw [cvLoopAux_cons_fail s p t0 i c rest h1 h2 h3] at hr
          simp [recordsOf] at hr
        | some fr =>
          rw [cvLoopAux_cons_good s p t0 i c rest fr h1 h2 h3,
            recordsOf_append, recordsOf_cycleEvsCv] at hr
          cases k with
          | zero =>
            simp only [List.singleton_append, List.get?_cons_zero,
              Option.some.injEq] at hr
            subst hr
            exact ⟨rfl, rfl⟩
          | succ k =>
            simp only [List.singleton_append, List.get?_cons_succ] at hr
            have h := ih (i + 1) k r hr
            have harith : i + 1 + k = i + (k + 1) := by omega
            rw [harith] at h
            exact h

theorem piLoopAux_records_get (w hgt : Nat) (s p t0 : ℚ) :
    ∀ (cycles : List Cycle) (i k : Nat) (r : Record),
      (recordsOf (piLoopAux w hgt s p t0 i cycles).1).get? k = some r →
      r.idx = i + k ∧ r.file = "frames/" ++ fname (i + k) := by
  intro cycles
  induction cycles with
  | nil => intro i k r hr; simp [piLoopAux, recordsOf] at hr
  | cons c rest ih =>
    intro i k r hr
    cases h1 : c.interrupt with
    | true =>
      rw [piLoopAux_cons_interrupt w hgt s p t0 i c rest h1] at hr
      simp [recordsOf] at hr
    | false =>
      by_cases h2 : (0 < s ∧ c.t - t0 ≥ s)
      · rw [piLoopAux_cons_break w hgt s p t0 i c rest h1 h2] at hr
        simp [recordsOf] at hr
      · cases h3 : c.capture with
        | none =>
          rw [piLoopAux_cons_fail w hgt s p t0 i c rest h1 h2 h3] at hr
          simp [recordsOf] at hr
        | some fr =>
          rw [piLoopAux_cons_good w hgt s p t0 i c rest fr h1 h2 h3,
            recordsOf_append, recordsOf_cycleEvsPi] at hr
          cases k with
          | zero =>
            simp only [List.singleton_append, List.get?_cons_zero,
              Option.some.injEq] at hr
            subst hr
            exact ⟨rfl, rfl⟩
          | succ k =>
            simp only [List.singleton_append, List.get?_cons_succ] at hr
            have h := ih (i + 1) k r hr
            have harith : i + 1 + k = i + (k + 1) := by omega
            rw [harith] at h
            exact h

theorem cvLoopAux_frames_get (s p t0 : ℚ) :
    ∀ (cycles : List Cycle) (i k : Nat) (n : String),
      (frameFilesOf (cvLoopAux s p t0 i cycles).1).get? k = some n →
      n = fname (i + k) := by
  intro cycles
  induction cycles with
  | nil => intro i k n hn; simp [cvLoopAux, frameFilesOf] at hn
  | cons c rest ih =>
    intro i k n hn
    cases h1 : c.interrupt with
    | true =>
      rw [cvLoopAux_cons_interrupt s p t0 i c rest h1] at hn
      simp [frameFilesOf] at hn
    | false =>
      by_cases h2 : (0 < s ∧ c.t - t0 ≥ s)
      · rw [cvLoopAux_cons_break s p t0 i c rest h1 h2] at hn
        simp [frameFilesOf] at hn
      · cases h3 : c.capture with
        | none =>
          rw [cvLoopAux_cons_fail s p t0 i c rest h1 h2 h3] at hn
          simp [frameFilesOf] at hn
        | some fr =>
          rw [cvLoopAux_cons_good s p t0 i c rest fr h1 h2 h3,
            frameFilesOf_append, frameFilesOf_cycleEvsCv] at hn
          cases k with
          | zero =>
            simp only [List.singleton_append, List.get?_cons_zero,
              Option.some.injEq] at hn
            exact hn.symm
          | succ k =>
            simp only [List.singleton_append, List.get?_cons_succ] at hn
            have h := ih (i + 1) k n hn
            have harith : i + 1 + k = i + (k + 1) := by omega
            rw [harith] at h
            exact h

theorem piLoopAux_frames_get (w hgt : Nat) (s p t0 : ℚ) :
    ∀ (cycles : List Cycle) (i k : Nat) (n : String),
      (frameFilesOf (piLoopAux w hgt s p t0 i cycles).1).get? k = some n →
      n = fname (i + k) := by
  intro cycles
  induction cycles with
  | nil => intro i k n hn; simp [piLoopAux, frameFilesOf] at hn
  | cons c rest ih =>
    intro i k n hn
    cases h1 : c.interrupt with
    | true =>
      rw [piLoopAux_cons_interrupt w hgt s p t0 i c rest h1] at hn
      simp [frameFilesOf] at hn
    | false =>
      by_cases h2 : (0 < s ∧ c.t - t0 ≥ s)
      · rw [piLoopAux_cons_break w hgt s p t0 i c rest h1 h2] at hn
        simp [frameFilesOf] at hn
      · cases h3 : c.capture with
        | none =>
          rw [piLoopAux_cons_fail w hgt s p t0 i c rest h1 h2 h3] at hn
          simp [frameFilesOf] at hn
        | some fr =>
          rw [piLoopAux_cons_good w hgt s p t0 i c rest fr h1 h2 h3,
            frameFilesOf_append, frameFilesOf_cycleEvsPi] at hn
          cases k with
          | zero =>
            simp only [List.singleton_append, List.get?_cons_zero,
              Option.some.injEq] at hn
            exact hn.symm
          | succ k =>
            simp only [List.singleton_append, List.get?_cons_succ] at hn
            have h := ih (i + 1) k n hn
            have harith : i + 1 + k = i + (k + 1) := by omega
            rw [harith] at h
            exact h

/- ### Membership facts about loop event lists -/

theorem cvLoopAux_attempt_mem (s p t0 : ℚ) :
    ∀ (cycles : List Cycle) (i : Nat) (t : ℚ),
      Ev.captureAttempt t ∈ (cvLoopAux s p t0 i cycles).1 →
      ∃ c ∈ cycles, t = c.t ∧ ¬(0 < s ∧ c.t - t0 ≥ s) := by
  intro cycles
  induction cycles with
  | nil => intro i t ht; simp [cvLoopAux] at ht
  | cons c rest ih =>
    intro i t ht
    cases h1 : c.interrupt with
    | true =>
      rw [cvLoopAux_cons_interrupt s p t0 i c rest h1] at ht
      simp at ht
    | false =>
      by_cases h2 : (0 < s ∧ c.t - t0 ≥ s)
      · rw [cvLoopAux_cons_break s p t0 i c rest h1 h2] at ht
        simp at ht
      · cases h3 : c.capture with
        | none =>
          rw [cvLoopAux_cons_fail s p t0 i c rest h1 h2 h3] at ht
          simp at ht
          exact ⟨c, List.mem_cons_self c rest, ht, h2⟩
        | some fr =>
          rw [cvLoopAux_cons_good s p t0 i c rest fr h1 h2 h3] at ht
          simp only [cycleEvsCv, List.mem_append, List.mem_cons,
            List.not_mem_nil, or_false] at ht
          rcases ht with (ht | ht | ht | ht | ht) | ht
          · exact ⟨c, List.mem_cons_self c rest, Ev.captureAttempt.inj ht, h2⟩
          · cases ht
          · cases ht
          · cases ht
          · cases ht
          · obtain ⟨c', hc', hprop⟩ := ih (i + 1) t ht
            exact ⟨c', List.mem_cons_of_mem c hc', hprop⟩

theorem piLoopAux_attempt_mem (w hgt : Nat) (s p t0 : ℚ) :
    ∀ (cycles : List Cycle) (i : Nat) (t : ℚ),
      Ev.captureAttempt t ∈ (piLoopAux w hgt s p t0 i cycles).1 →
      ∃ c ∈ cycles, t = c.t ∧ ¬(0 < s ∧ c.t - t0 ≥ s) := by
  intro cycles
  induction cycles with
  | nil => intro i t ht; simp [piLoopAux] at ht
  | cons c rest ih =>
    intro i t ht
    cases h1 : c.interrupt with
    | true =>
      rw [piLoopAux_cons_interrupt w hgt s p t0 i c rest h1] at ht
      simp at ht
    | false =>
      by_cases h2 : (0 < s ∧ c.t - t0 ≥ s)
      · rw [piLoopAux_cons_break w hgt s p t0 i c rest h1 h2] at ht
        simp at ht
      · cases h3 : c.capture with
        | none =>
          rw [piLoopAux_cons_fail w hgt s p t0 i c rest h1 h2 h3] at ht
          simp at ht
          exact ⟨c, List.mem_cons_self c rest, ht, h2⟩
        | some fr =>
          rw [piLoopAux_cons_good w hgt s p t0 i c rest fr h1 h2 h3] at ht
          simp only [cycleEvsPi, List.mem_append, List.mem_cons,
            List.not_mem_nil, or_false] at ht
          rcases ht with (ht | ht | ht | ht | ht) | ht
          · exact ⟨c, List.mem_cons_self c rest, Ev.captureAttempt.inj ht, h2⟩
          · cases ht
          · cases ht
          · cases ht
          · cases ht
          · obtain ⟨c', hc', hprop⟩ := ih (i + 1) t ht
            exact ⟨c', List.mem_cons_of_mem c hc', hprop⟩

theorem cvLoopAux_break_mem (s p t0 : ℚ) :
    ∀ (cycles : List Cycle) (i : Nat) (t : ℚ),
      Ev.durationBreak t ∈ (cvLoopAux s p t0 i cycles).1 →
      0 < s ∧ s ≤ t - t0 := by
  intro cycles
  induction cycles with
  | nil => intro i t ht; simp [cvLoopAux] at ht
  | cons c rest ih =>
    intro i t ht
    cases h1 : c.interrupt with
    | true =>
      rw [cvLoopAux_cons_interrupt s p t0 i c rest h1] at ht
      simp at ht
    | false =>
      by_cases h2 : (0 < s ∧ c.t - t0 ≥ s)
      · rw [cvLoopAux_cons_break s p t0 i c rest h1 h2] at ht
        simp at ht
        rw [ht]
        exact ⟨h2.1, h2.2⟩
      · cases h3 : c.capture with
        | none =>
          rw [cvLoopAux_cons_fail s p t0 i c rest h1 h2 h3] at ht
          simp at ht
        | some fr =>
          rw [cvLoopAux_cons_good s p t0 i c rest fr h1 h2 h3] at ht
          simp only [cycleEvsCv, List.mem_append, List.mem_cons,
            List.not_mem_nil, or_false] at ht
          rcases ht with (ht | ht | ht | ht | ht) | ht
          · cases ht
          · cases ht
          · cases ht
          · cases ht
          · cases ht
          · exact ih (i + 1) t ht

theorem piLoopAux_break_mem (w hgt : Nat) (s p t0 : ℚ) :
    ∀ (cycles : List Cycle) (i : Nat) (t : ℚ),
      Ev.durationBreak t ∈ (piLoopAux w hgt s p t0 i cycles).1 →
      0 < s ∧ s ≤ t - t0 := by
  intro cycles
  induction cycles with
  | nil => intro i t ht; simp [piLoopAux] at ht
  | cons c rest ih =>
    intro i t ht
    cases h1 : c.interrupt with
    | true =>
      rw [piLoopAux_cons_interrupt w hgt s p t0 i c rest h1] at ht
      simp at ht
    | false =>
      by_cases h2 : (0 < s ∧ c.t - t0 ≥ s)
      · rw [piLoopAux_cons_break w hgt s p t0 i c rest h1 h2] at ht
        simp at ht
        rw [ht]
        exact ⟨h2.1, h2.2⟩
      · cases h3 : c.capture with
        | none =>
          rw [piLoopAux_cons_fail w hgt s p t0 i c rest h1 h2 h3] at ht
          simp at ht
        | some fr =>
          rw [piLoopAux_cons_good w hgt s p t0 i c rest fr h1 h2 h3] at ht
          simp only [cycleEvsPi, List.mem_append, List.mem_cons,
            List.not_mem_nil, or_false] at ht
          rcases ht with (ht | ht | ht | ht | ht) | ht
          · cases ht
          · cases ht
          · cases ht
          · cases ht
          · cases ht
          · exact ih (i + 1) t ht

theorem cvLoopAux_no_release (s p t0 : ℚ) :
    ∀ (cycles : List Cycle) (i : Nat),
      Ev.release ∉ (cvLoopAux s p t0 i cycles).1 := by
  intro cycles
  induction cycles with
  | nil => intro i h; simp [cvLoopAux] at h
  | cons c rest ih =>
    intro i h
    cases h1 : c.interrupt with
    | true =>
      rw [cvLoopAux_cons_interrupt s p t0 i c rest h1] at h
      simp at h
    | false =>
      by_cases h2 : (0 < s ∧ c.t - t0 ≥ s)
      · rw [cvLoopAux_cons_break s p t0 i c rest h1 h2] at h
        simp at h
      · cases h3 : c.capture with
        | none =>
          rw [cvLoopAux_cons_fail s p t0 i c rest h1 h2 h3] at h
          simp at h
        | some fr =>
          rw [cvLoopAux_cons_good s p t0 i c rest fr h1 h2 h3] at h
          simp only [cycleEvsCv, List.mem_append, List.mem_cons,
            List.not_mem_nil, or_false] at h
          rcases h with (h | h | h | h | h) | h
          · cases h
          · cases h
          · cases h
          · cases h
          · cases h
          · exact ih (i + 1) h

theorem piLoopAux_no_release (w hgt : Nat) (s p t0 : ℚ) :
    ∀ (cycles : List Cycle) (i : Nat),
      Ev.release ∉ (piLoopAux w hgt s p t0 i cycles).1 := by
  intro cycles
  induction cycles with
  | nil => intro i h; simp [piLoopAux] at h
  | cons c rest ih =>
    intro i h
    cases h1 : c.interrupt with
    | true =>
      rw [piLoopAux_cons_interrupt w hgt s p t0 i c rest h1] at h
      simp at h
    | false =>
      by_cases h2 : (0 < s ∧ c.t - t0 ≥ s)
      · rw [piLoopAux_cons_break w hgt s p t0 i c rest h1 h2] at h
        simp at h
      · cases h3 : c.capture with
        | none =>
          rw [piLoopAux_cons_fail w hgt s p t0 i c rest h1 h2 h3] at h
          simp at h
        | some fr =>
          rw [piLoopAux_cons_good w hgt s p t0 i c rest fr h1 h2 h3] at h
          simp only [cycleEvsPi, List.mem_append, List.mem_cons,
            List.not_mem_nil, or_false] at h
          rcases h with (h | h | h | h | h) | h
          · cases h
          · cases h
          · cases h
          · cases h
          · cases h
          · exact ih (i + 1) h

theorem cvLoopAux_record_shape (s p t0 : ℚ) :
    ∀ (cycles : List Cycle) (i : Nat) (r : Record),
      r ∈ recordsOf (cvLoopAux s p t0 i cycles).1 →
      ∃ j t fr, r = mkRecordCv j t fr := by
  intro cycles
  induction cycles with
  | nil => intro i r hr; simp [cvLoopAux, recordsOf] at hr
  | cons c rest ih =>
    intro i r hr
    cases h1 : c.interrupt with
    | true =>
      rw [cvLoopAux_cons_interrupt s p t0 i c rest h1] at hr
      simp [recordsOf] at hr
    | false =>
      by_cases h2 : (0 < s ∧ c.t - t0 ≥ s)
      · rw [cvLoopAux_cons_break s p t0 i c rest h1 h2] at hr
        simp [recordsOf] at hr
      · cases h3 : c.capture with
        | none =>
          rw [cvLoopAux_cons_fail s p t0 i c rest h1 h2 h3] at hr
          simp [recordsOf] at hr
        | some fr =>
          rw [cvLoopAux_cons_good s p t0 i c rest fr h1 h2 h3,
            recordsOf_append, recordsOf_cycleEvsCv] at hr
          rcases List.mem_append.mp hr with hr | hr
          · exact ⟨i, c.t, fr, (List.mem_singleton.mp hr)⟩
          · exact ih (i + 1) r hr

theorem piLoopAux_record_shape (w hgt : Nat) (s p t0 : ℚ) :
    ∀ (cycles : List Cycle) (i : Nat) (r : Record),
      r ∈ recordsOf (piLoopAux w hgt s p t0 i cycles).1 →
      ∃ j t, r = mkRecordPi w hgt j t := by
  intro cycles
  induction cycles with
  | nil => intro i r hr; simp [piLoopAux, recordsOf] at hr
  | cons c rest ih =>
    intro i r hr
    cases h1 : c.interrupt with
    | true =>
      rw [piLoopAux_cons_interrupt w hgt s p t0 i c rest h1] at hr
      simp [recordsOf] at hr
    | false =>
      by_cases h2 : (0 < s ∧ c.t - t0 ≥ s)
      · rw [piLoopAux_cons_break w hgt s p t0 i c rest h1 h2] at hr
        simp [recordsOf] at hr
      · cases h3 : c.capture with
        | none =>
          rw [piLoopAux_cons_fail w hgt s p t0 i c rest h1 h2 h3] at hr
          simp [recordsOf] at hr
        | some fr =>
          rw [piLoopAux_cons_good w hgt s p t0 i c rest fr h1 h2 h3,
            recordsOf_append, recordsOf_cycleEvsPi] at hr
          rcases List.mem_append.mp hr with hr | hr
          · exact ⟨i, c.t, (List.mem_singleton.mp hr)⟩
          · exact ih (i + 1) r hr

/- ### Facts about the loop epilogue -/

theorem release_mem_exitTail (x : LoopExit) :
    Ev.release ∈ exitTail x ↔ (x = .brokeDuration ∨ x = .brokeCapture) := by
  cases x <;> simp [exitTail]

theorem attempt_not_mem_exitTail (x : LoopExit) (t : ℚ) :
    Ev.captureAttempt t ∉ exitTail x := by
  cases x <;> simp [exitTail]

theorem break_not_mem_exitTail (x : LoopExit) (t : ℚ) :
    Ev.durationBreak t ∉ exitTail x := by
  cases x <;> simp [exitTail]

theorem recordsOf_exitTail (x : LoopExit) : recordsOf (exitTail x) = [] := by
  cases x <;> rfl

theorem frameFilesOf_exitTail (x : LoopExit) : frameFilesOf (exitTail x) = [] := by
  cases x <;> rfl

theorem attemptsOf_exitTail (x : LoopExit) : attemptsOf (exitTail x) = [] := by
  cases x <;> rfl

theorem exitOutcome_finished (x : LoopExit) :
    exitOutcome x = .finished ↔ (x = .brokeDuration ∨ x = .brokeCapture) := by
  cases x <;> simp [exitOutcome]

theorem exitOutcome_interrupted (x : LoopExit) :
    exitOutcome x = .interrupted ↔ x = .interrupted := by
  cases x <;> simp [exitOutcome]

theorem exitOutcome_captureExn (x : LoopExit) :
    exitOutcome x = .captureExn ↔ x = .captureExn := by
  cases x <;> simp [exitOutcome]

/- ### Unfolding the loop functions -/

theorem opencv_loop_eq (fps : ℚ) (w h : Nat) (s : ℚ) (env : Env)
    (hdev : env.deviceOpens = true) (hfps : fps ≠ 0) :
    opencv_loop fps w h s env
      = (([.ensureDir "frames", .openCamera, .requestResolution w h, .openMeta "a"]
            ++ (cvLoopAux s (1 / fps) env.t0 0 env.cycles).1)
           ++ exitTail (cvLoopAux s (1 / fps) env.t0 0 env.cycles).2,
         exitOutcome (cvLoopAux s (1 / fps) env.t0 0 env.cycles).2) := by
  simp [opencv_loop, hdev, hfps]

theorem picamera2_loop_eq (fps : ℚ) (w h : Nat) (s : ℚ) (env : Env)
    (hdev : env.deviceOpens = true) (hfps : fps ≠ 0) :
    picamera2_loop fps w h s env
      = (([.ensureDir "frames", .openCamera, .openMeta "a"]
            ++ (piLoopAux w h s (1 / fps) env.t0 0 env.cycles).1)
           ++ exitTail (piLoopAux w h s (1 / fps) env.t0 0 env.cycles).2,
         exitOutcome (piLoopAux w h s (1 / fps) env.t0 0 env.cycles).2) := by
  simp [picamera2_loop, hdev, hfps]

theorem opencv_loop_nodev (fps : ℚ) (w h : Nat) (s : ℚ) (env : Env)
    (hdev : env.deviceOpens = false) :
    opencv_loop fps w h s env = ([.ensureDir "frames"], .deviceUnavailable) := by
  simp [opencv_loop, hdev]

theorem picamera2_loop_nodev (fps : ℚ) (w h : Nat) (s : ℚ) (env : Env)
    (hdev : env.deviceOpens = false) :
    picamera2_loop fps w h s env = ([.ensureDir "frames"], .deviceUnavailable) := by
  simp [picamera2_loop, hdev]

theorem opencv_loop_fps0 (fps : ℚ) (w h : Nat) (s : ℚ) (env : Env)
    (hdev : env.deviceOpens = true) (hfps : fps = 0) :
    opencv_loop fps w h s env
      = ([.ensureDir "frames", .openCamera, .requestResolution w h], .divByZero) := by
  subst hfps
  simp [opencv_loop, hdev]

theorem picamera2_loop_fps0 (fps : ℚ) (w h : Nat) (s : ℚ) (env : Env)
    (hdev : env.deviceOpens = true) (hfps : fps = 0) :
    picamera2_loop fps w h s env
      = ([.ensureDir "frames", .openCamera], .divByZero) := by
  subst hfps
  simp [picamera2_loop, hdev]

/- ### Projections through the loop functions -/

theorem recordsOf_opencv_loop (fps : ℚ) (w h : Nat) (s : ℚ) (env : Env)
    (hdev : env.deviceOpens = true) (hfps : fps ≠ 0) :
    recordsOf (opencv_loop fps w h s env).1
      = recordsOf (cvLoopAux s (1 / fps) env.t0 0 env.cycles).1 := by
  rw [opencv_loop_eq fps w h s env hdev hfps]
  simp only [recordsOf_append, recordsOf_exitTail, List.append_nil]
  simp [recordsOf]

theorem recordsOf_picamera2_loop (fps : ℚ) (w h : Nat) (s : ℚ) (env : Env)
    (hdev : env.deviceOpens = true) (hfps : fps ≠ 0) :
    recordsOf (picamera2_loop fps w h s env).1
      = recordsOf (piLoopAux w h s (1 / fps) env.t0 0 env.cycles).1 := by
  rw [picamera2_loop_eq fps w h s env hdev hfps]
  simp only [recordsOf_append, recordsOf_exitTail, List.append_nil]
  simp [recordsOf]

theorem frameFilesOf_opencv_loop (fps : ℚ) (w h : Nat) (s : ℚ) (env : Env)
    (hdev : env.deviceOpens = true) (hfps : fps ≠ 0) :
    frameFilesOf (opencv_loop fps w h s env).1
      = frameFilesOf (cvLoopAux s (1 / fps) env.t0 0 env.cycles).1 := by
  rw [opencv_loop_eq fps w h s env hdev hfps]
  simp only [frameFilesOf_append, frameFilesOf_exitTail, List.append_nil]
  simp [frameFilesOf]

theorem frameFilesOf_picamera2_loop (fps : ℚ) (w h : Nat) (s : ℚ) (env : Env)
    (hdev : env.deviceOpens = true) (hfps : fps ≠ 0) :
    frameFilesOf (picamera2_loop fps w h s env).1
      = frameFilesOf (piLoopAux w h s (1 / fps) env.t0 0 env.cycles).1 := by
  rw [picamera2_loop_eq fps w h s env hdev hfps]
  simp only [frameFilesOf_append, frameFilesOf_exitTail, List.append_nil]
  simp [frameFilesOf]

theorem attemptsOf_opencv_loop (fps : ℚ) (w h : Nat) (s : ℚ) (env : Env)
    (hdev : env.deviceOpens = true) (hfps : fps ≠ 0) :
    attemptsOf (opencv_loop fps w h s env).1
      = attemptsOf (cvLoopAux s (1 / fps) env.t0 0 env.cycles).1 := by
  rw [opencv_loop_eq fps w h s env hdev hfps]
  simp only [attemptsOf_append, attemptsOf_exitTail, List.append_nil]
  simp [attemptsOf]

theorem attemptsOf_picamera2_loop (fps : ℚ) (w h : Nat) (s : ℚ) (env : Env)
    (hdev : env.deviceOpens = true) (hfps : fps ≠ 0) :
    attemptsOf (picamera2_loop fps w h s env).1
      = attemptsOf (piLoopAux w h s (1 / fps) env.t0 0 env.cycles).1 := by
  rw [picamera2_loop_eq fps w h s env hdev hfps]
  simp only [attemptsOf_append, attemptsOf_exitTail, List.append_nil]
  simp [attemptsOf]

theorem attempt_mem_opencv_loop (fps : ℚ) (w h : Nat) (s : ℚ) (env : Env) (t : ℚ)
    (ht : Ev.captureAttempt t ∈ (opencv_loop fps w h s env).1) :
    ∃ c ∈ env.cycles, t = c.t ∧ ¬(0 < s ∧ c.t - env.t0 ≥ s) := by
  cases hdev : env.deviceOpens with
  | false =>
    rw [opencv_loop_nodev fps w h s env hdev] at ht
    simp at ht
  | true =>
    by_cases hfps : fps = 0
    · rw [opencv_loop_fps0 fps w h s env hdev hfps] at ht
      simp at ht
    · rw [opencv_loop_eq fps w h s env hdev hfps] at ht
      rcases List.mem_append.mp ht with ht | ht
      · rcases List.mem_append.mp ht with ht | ht
        · simp at ht
        · exact cvLoopAux_attempt_mem s (1 / fps) env.t0 env.cycles 0 t ht
      · exact absurd ht (attempt_not_mem_exitTail _ t)

theorem attempt_mem_picamera2_loop (fps : ℚ) (w h : Nat) (s : ℚ) (env : Env) (t : ℚ)
    (ht : Ev.captureAttempt t ∈ (picamera2_loop fps w h s env).1) :
    ∃ c ∈ env.cycles, t = c.t ∧ ¬(0 < s ∧ c.t - env.t0 ≥ s) := by
  cases hdev : env.deviceOpens with
  | false =>
    rw [picamera2_loop_nodev fps w h s env hdev] at ht
    simp at ht
  | true =>
    by_cases hfps : fps = 0
    · rw [picamera2_loop_fps0 fps w h s env hdev hfps] at ht
      simp at ht
    · rw [picamera2_loop_eq fps w h s env hdev hfps] at ht
      rcases List.mem_append.mp ht with ht | ht
      · rcases List.mem_append.mp ht with ht | ht
        · simp at ht
        · exact piLoopAux_attempt_mem w h s (1 / fps) env.t0 env.cycles 0 t ht
      · exact absurd ht (attempt_not_mem_exitTail _ t)

theorem break_mem_opencv_loop (fps : ℚ) (w h : Nat) (s : ℚ) (env : Env) (t : ℚ)
    (ht : Ev.durationBreak t ∈ (opencv_loop fps w h s env).1) :
    0 < s ∧ s ≤ t - env.t0 := by
  cases hdev : env.deviceOpens with
  | false =>
    rw [opencv_loop_nodev fps w h s env hdev] at ht
    simp at ht
  | true =>
    by_cases hfps : fps = 0
    · rw [opencv_loop_fps0 fps w h s env hdev hfps] at ht
      simp at ht
    · rw [opencv_loop_eq fps w h s env hdev hfps] at ht
      rcases List.mem_append.mp ht with ht | ht
      · rcases List.mem_append.mp ht with ht | ht
        · simp at ht
        · exact cvLoopAux_break_mem s (1 / fps) env.t0 env.cycles 0 t ht
      · exact absurd ht (break_not_mem_exitTail _ t)

theorem break_mem_picamera2_loop (fps : ℚ) (w h : Nat) (s : ℚ) (env : Env) (t : ℚ)
    (ht : Ev.durationBreak t ∈ (picamera2_loop fps w h s env).1) :
    0 < s ∧ s ≤ t - env.t0 := by
  cases hdev : env.deviceOpens with
  | false =>
    rw [picamera2_loop_nodev fps w h s env hdev] at ht
    simp at ht
  | true =>
    by_cases hfps : fps = 0
    · rw [picamera2_loop_fps0 fps w h s env hdev hfps] at ht
      simp at ht
    · rw [picamera2_loop_eq fps w h s env hdev hfps] at ht
      rcases List.mem_append.mp ht with ht | ht
      · rcases List.mem_append.mp ht with ht | ht
        · simp at ht
        · exact piLoopAux_break_mem w h s (1 / fps) env.t0 env.cycles 0 t ht
      · exact absurd ht (break_not_mem_exitTail _ t)

/- ### Flush discipline -/

theorem ffw_cycleEvsCv (p : ℚ) (i : Nat) (c : Cycle) (fr : Frame) (l : List Ev) :
    flushFollowsWrite (cycleEvsCv p i c fr ++ l) = flushFollowsWrite l := rfl

theorem ffw_cycleEvsPi (w h : Nat) (p : ℚ) (i : Nat) (c : Cycle) (l : List Ev) :
    flushFollowsWrite (cycleEvsPi w h p i c ++ l) = flushFollowsWrite l := rfl

theorem cvLoopAux_ffw (s p t0 : ℚ) :
    ∀ (cycles : List Cycle) (i : Nat) (tail : List Ev),
      flushFollowsWrite ((cvLoopAux s p t0 i cycles).1 ++ tail)
        = flushFollowsWrite tail := by
  intro cycles
  induction cycles with
  | nil => intro i tail; rfl
  | cons c rest ih =>
    intro i tail
    cases h1 : c.interrupt with
    | true => rw [cvLoopAux_cons_interrupt s p t0 i c rest h1]; rfl
    | false =>
      by_cases h2 : (0 < s ∧ c.t - t0 ≥ s)
      · rw [cvLoopAux_cons_break s p t0 i c rest h1 h2]; rfl
      · cases h3 : c.capture with
        | none => rw [cvLoopAux_cons_fail s p t0 i c rest h1 h2 h3]; rfl
        | some fr =>
          rw [cvLoopAux_cons_good s p t0 i c rest fr h1 h2 h3]
          show flushFollowsWrite ((cycleEvsCv p i c fr ++ _) ++ tail) = _
          rw [List.append_assoc, ffw_cycleEvsCv]
          exact ih (i + 1) tail

theorem piLoopAux_ffw (w hgt : Nat) (s p t0 : ℚ) :
    ∀ (cycles : List Cycle) (i : Nat) (tail : List Ev),
      flushFollowsWrite ((piLoopAux w hgt s p t0 i cycles).1 ++ tail)
        = flushFollowsWrite tail := by
  intro cycles
  induction cycles with
  | nil => intro i tail; rfl
  | cons c rest ih =>
    intro i tail
    cases h1 : c.interrupt with
    | true => rw [piLoopAux_cons_interrupt w hgt s p t0 i c rest h1]; rfl
    | false =>
      by_cases h2 : (0 < s ∧ c.t - t0 ≥ s)
      · rw [piLoopAux_cons_break w hgt s p t0 i c rest h1 h2]; rfl
      · cases h3 : c.capture with
        | none => rw [piLoopAux_cons_fail w hgt s p t0 i c rest h1 h2 h3]; rfl
        | some fr =>
          rw [piLoopAux_cons_good w hgt s p t0 i c rest fr h1 h2 h3]
          show flushFollowsWrite ((cycleEvsPi w hgt p i c ++ _) ++ tail) = _
          rw [List.append_assoc, ffw_cycleEvsPi]
          exact ih (i + 1) tail

theorem ffw_exitTail (x : LoopExit) : flushFollowsWrite (exitTail x) = true := by
  cases x <;> rfl

/- ### Contents of the metadata log -/

theorem foldl_metaStep_cycleEvsCv (p : ℚ) (i : Nat) (c : Cycle) (fr : Frame)
    (acc : List String) :
    (cycleEvsCv p i c fr).foldl metaStep acc
      = acc ++ [renderRecord (mkRecordCv i c.t fr)] := rfl

theorem foldl_metaStep_cycleEvsPi (w h : Nat) (p : ℚ) (i : Nat) (c : Cycle)
    (acc : List String) :
    (cycleEvsPi w h p i c).foldl metaStep acc
      = acc ++ [renderRecord (mkRecordPi w h i c.t)] := rfl

theorem cvLoopAux_foldl_meta (s p t0 : ℚ) :
    ∀ (cycles : List Cycle) (i : Nat) (acc : List String),
      (cvLoopAux s p t0 i cycles).1.foldl metaStep acc
        = acc ++ (recordsOf (cvLoopAux s p t0 i cycles).1).map renderRecord := by
  intro cycles
  induction cycles with
  | nil => intro i acc; simp [cvLoopAux, recordsOf]
  | cons c rest ih =>
    intro i acc
    cases h1 : c.interrupt with
    | true => rw [cvLoopAux_cons_interrupt s p t0 i c rest h1]; simp [recordsOf]
    | false =>
      by_cases h2 : (0 < s ∧ c.t - t0 ≥ s)
      · rw [cvLoopAux_cons_break s p t0 i c rest h1 h2]
        simp [recordsOf, metaStep]
      · cases h3 : c.capture with
        | none =>
          rw [cvLoopAux_cons_fail s p t0 i c rest h1 h2 h3]
          simp [recordsOf, metaStep]
        | some fr =>
          rw [cvLoopAux_cons_good s p t0 i c rest fr h1 h2 h3]
          rw [List.foldl_append, foldl_metaStep_cycleEvsCv, ih (i + 1),
            recordsOf_append, recordsOf_cycleEvsCv]
          simp

theorem piLoopAux_foldl_meta (w hgt : Nat) (s p t0 : ℚ) :
    ∀ (cycles : List Cycle) (i : Nat) (acc : List String),
      (piLoopAux w hgt s p t0 i cycles).1.foldl metaStep acc
        = acc ++ (recordsOf (piLoopAux w hgt s p t0 i cycles).1).map renderRecord := by
  intro cycles
  induction cycles with
  | nil => intro i acc; simp [piLoopAux, recordsOf]
  | cons c rest ih =>
    intro i acc
    cases h1 : c.interrupt with
    | true => rw [piLoopAux_cons_interrupt w hgt s p t0 i c rest h1]; simp [recordsOf]
    | false =>
      by_cases h2 : (0 < s ∧ c.t - t0 ≥ s)
      · rw [piLoopAux_cons_break w hgt s p t0 i c rest h1 h2]
        simp [recordsOf, metaStep]
      · cases h3 : c.capture with
        | none =>
          rw [piLoopAux_cons_fail w hgt s p t0 i c rest h1 h2 h3]
          simp [recordsOf, metaStep]
        | some fr =>
          rw [piLoopAux_cons_good w hgt s p t0 i c rest fr h1 h2 h3]
          rw [List.foldl_append, foldl_metaStep_cycleEvsPi, ih (i + 1),
            recordsOf_append, recordsOf_cycleEvsPi]
          simp

theorem foldl_metaStep_exitTail (x : LoopExit) (acc : List String) :
    (exitTail x).foldl metaStep acc = acc := by
  cases x <;> rfl

/- ### Runs over a prefix of successful cycles -/

theorem cvLoopAux_goods (s p t0 : ℚ) :
    ∀ (goods : List Cycle) (i : Nat) (rest : List Cycle),
      (∀ c ∈ goods, goodCycle s t0 c) →
      cvLoopAux s p t0 i (goods ++ rest)
        = (goodsEvsCv p i goods ++ (cvLoopAux s p t0 (i + goods.length) rest).1,
           (cvLoopAux s p t0 (i + goods.length) rest).2) := by
  intro goods
  induction goods with
  | nil => intro i rest _; simp [goodsEvsCv]
  | cons c cs ih =>
    intro i rest hg
    obtain ⟨h1, h2, h3s⟩ := hg c (List.mem_cons_self c cs)
    obtain ⟨fr, h3⟩ := Option.isSome_iff_exists.mp h3s
    rw [List.cons_append, cvLoopAux_cons_good s p t0 i c (cs ++ rest) fr h1 h2 h3,
      ih (i + 1) rest (fun c' hc' => hg c' (List.mem_cons_of_mem c hc'))]
    have hlen : i + 1 + cs.length = i + (c :: cs).length := by
      simp [List.length_cons]
      omega
    rw [hlen]
    show (cycleEvsCv p i c fr ++ _, _) = (goodsEvsCv p i (c :: cs) ++ _, _)
    simp [goodsEvsCv, h3, List.append_assoc]

theorem piLoopAux_goods (w hgt : Nat) (s p t0 : ℚ) :
    ∀ (goods : List Cycle) (i : Nat) (rest : List Cycle),
      (∀ c ∈ goods, goodCycle s t0 c) →
      piLoopAux w hgt s p t0 i (goods ++ rest)
        = (goodsEvsPi w hgt p i goods ++ (piLoopAux w hgt s p t0 (i + goods.length) rest).1,
           (piLoopAux w hgt s p t0 (i + goods.length) rest).2) := by
  intro goods
  induction goods with
  | nil => intro i rest _; simp [goodsEvsPi]
  | cons c cs ih =>
    intro i rest hg
    obtain ⟨h1, h2, h3s⟩ := hg c (List.mem_cons_self c cs)
    obtain ⟨fr, h3⟩ := Option.isSome_iff_exists.mp h3s
    rw [List.cons_append, piLoopAux_cons_good w hgt s p t0 i c (cs ++ rest) fr h1 h2 h3,
      ih (i + 1) rest (fun c' hc' => hg c' (List.mem_cons_of_mem c hc'))]
    have hlen : i + 1 + cs.length = i + (c :: cs).length := by
      simp [List.length_cons]
      omega
    rw [hlen]
    show (cycleEvsPi w hgt p i c ++ _, _) = (goodsEvsPi w hgt p i (c :: cs) ++ _, _)
    simp [goodsEvsPi, List.append_assoc]

theorem recordsOf_goodsEvsCv_idx (p : ℚ) :
    ∀ (goods : List Cycle) (i : Nat),
      (recordsOf (goodsEvsCv p i goods)).map Record.idx = List.range' i goods.length := by
  intro goods
  induction goods with
  | nil => intro i; rfl
  | cons c cs ih =>
    intro i
    rw [goodsEvsCv, recordsOf_append, recordsOf_cycleEvsCv]
    simp only [List.length_cons, List.range'_succ, List.map_append, List.map_cons,
      List.map_nil, List.singleton_append]
    rw [ih (i + 1)]
    rfl

theorem recordsOf_goodsEvsPi_idx (w h : Nat) (p : ℚ) :
    ∀ (goods : List Cycle) (i : Nat),
      (recordsOf (goodsEvsPi w h p i goods)).map Record.idx = List.range' i goods.length := by
  intro goods
  induction goods with
  | nil => intro i; rfl
  | cons c cs ih =>
    intro i
    rw [goodsEvsPi, recordsOf_append, recordsOf_cycleEvsPi]
    simp only [List.length_cons, List.range'_succ, List.map_append, List.map_cons,
      List.map_nil, List.singleton_append]
    rw [ih (i + 1)]
    rfl

theorem attemptsOf_goodsEvsCv (p : ℚ) :
    ∀ (goods : List Cycle) (i : Nat),
      attemptsOf (goodsEvsCv p i goods) = goods.map Cycle.t := by
  intro goods
  induction goods with
  | nil => intro i; rfl
  | cons c cs ih =>
    intro i
    rw [goodsEvsCv, attemptsOf_append, attemptsOf_cycleEvsCv, ih (i + 1)]
    rfl

theorem attemptsOf_goodsEvsPi (w h : Nat) (p : ℚ) :
    ∀ (goods : List Cycle) (i : Nat),
      attemptsOf (goodsEvsPi w h p i goods) = goods.map Cycle.t := by
  intro goods
  induction goods with
  | nil => intro i; rfl
  | cons c cs ih =>
    intro i
    rw [goodsEvsPi, attemptsOf_append, attemptsOf_cycleEvsPi, ih (i + 1)]
    rfl

theorem frameFilesOf_goodsEvsCv (p : ℚ) :
    ∀ (goods : List Cycle) (i : Nat),
      frameFilesOf (goodsEvsCv p i goods) = (List.range' i goods.length).map fname := by
  intro goods
  induction goods with
  | nil => intro i; rfl
  | cons c cs ih =>
    intro i
    rw [goodsEvsCv, frameFilesOf_append, frameFilesOf_cycleEvsCv, ih (i + 1)]
    simp [List.range'_succ]

theorem frameFilesOf_goodsEvsPi (w h : Nat) (p : ℚ) :
    ∀ (goods : List Cycle) (i : Nat),
      frameFilesOf (goodsEvsPi w h p i goods) = (List.range' i goods.length).map fname := by
  intro goods
  induction goods with
  | nil => intro i; rfl
  | cons c cs ih =>
    intro i
    rw [goodsEvsPi, frameFilesOf_append, frameFilesOf_cycleEvsPi, ih (i + 1)]
    simp [List.range'_succ]

/- ### The duration guard never fires for non-positive durations -/

theorem cvLoopAux_exit_ne_duration (s p t0 : ℚ) (hs : s ≤ 0) :
    ∀ (cycles : List Cycle) (i : Nat),
      (cvLoopAux s p t0 i cycles).2 ≠ .brokeDuration := by
  intro cycles
  induction cycles with
  | nil => intro i h; simp [cvLoopAux] at h
  | cons c rest ih =>
    intro i h
    cases h1 : c.interrupt with
    | true => rw [cvLoopAux_cons_interrupt s p t0 i c rest h1] at h; exact absurd h (by simp)
    | false =>
      by_cases h2 : (0 < s ∧ c.t - t0 ≥ s)
      · exact absurd hs (by linarith [h2.1])
      · cases h3 : c.capture with
        | none =>
          rw [cvLoopAux_cons_fail s p t0 i c rest h1 h2 h3] at h
          exact absurd h (by simp)
        | some fr =>
          rw [cvLoopAux_cons_good s p t0 i c rest fr h1 h2 h3] at h
          exact ih (i + 1) h

theorem piLoopAux_exit_ne_duration (w hgt : Nat) (s p t0 : ℚ) (hs : s ≤ 0) :
    ∀ (cycles : List Cycle) (i : Nat),
      (piLoopAux w hgt s p t0 i cycles).2 ≠ .brokeDuration := by
  intro cycles
  induction cycles with
  | nil => intro i h; simp [piLoopAux] at h
  | cons c rest ih =>
    intro i h
    cases h1 : c.interrupt with
    | true =>
      rw [piLoopAux_cons_interrupt w hgt s p t0 i c rest h1] at h
      exact absurd h (by simp)
    | false =>
      by_cases h2 : (0 < s ∧ c.t - t0 ≥ s)
      · exact absurd hs (by linarith [h2.1])
      · cases h3 : c.capture with
        | none =>
          rw [piLoopAux_cons_fail w hgt s p t0 i c rest h1 h2 h3] at h
          exact absurd h (by simp)
        | some fr =>
          rw [piLoopAux_cons_good w hgt s p t0 i c rest fr h1 h2 h3] at h
          exact ih (i + 1) h

/- ### The claims -/

/-- Claim C1, as amended: every metadata record appended for a successfully
saved frame is a JSON object containing exactly the fields `idx` (not
`index`: the source writes the key `"idx"`), `file`, `timestamp_unix`,
`timestamp_iso`, `width` and `height`, in that order, where `idx` is a
non-negative integer, `file` is the relative path `frames/<idx padded>.png`
and `timestamp_iso` is derived from `timestamp_unix`, in both backend
variants. -/
theorem C1_record_fields (fps : ℚ) (w h : Nat) (s : ℚ) (env : Env) (r : Record)
    (hr : r ∈ recordsOf (opencv_loop fps w h s env).1 ∨
          r ∈ recordsOf (picamera2_loop fps w h s env).1) :
    r.jsonFields.map Prod.fst
        = ["idx", "file", "timestamp_unix", "timestamp_iso", "width", "height"]
    ∧ r.timestamp_iso = isoOfTimestamp r.timestamp_unix
    ∧ r.file = "frames/" ++ fname r.idx := by
  rcases hr with hr | hr
  · cases hdev : env.deviceOpens with
    | false =>
      rw [opencv_loop_nodev fps w h s env hdev] at hr
      simp [recordsOf] at hr
    | true =>
      by_cases hfps : fps = 0
      · rw [opencv_loop_fps0 fps w h s env hdev hfps] at hr
        simp [recordsOf] at hr
      · rw [recordsOf_opencv_loop fps w h s env hdev hfps] at hr
        obtain ⟨j, t, fr, rfl⟩ :=
          cvLoopAux_record_shape s (1 / fps) env.t0 env.cycles 0 r hr
        exact ⟨rfl, rfl, rfl⟩
  · cases hdev : env.deviceOpens with
    | false =>
      rw [picamera2_loop_nodev fps w h s env hdev] at hr
      simp [recordsOf] at hr
    | true =>
      by_cases hfps : fps = 0
      · rw [picamera2_loop_fps0 fps w h s env hdev hfps] at hr
        simp [recordsOf] at hr
      · rw [recordsOf_picamera2_loop fps w h s env hdev hfps] at hr
        obtain ⟨j, t, rfl⟩ :=
          piLoopAux_record_shape w h s (1 / fps) env.t0 env.cycles 0 r hr
        exact ⟨rfl, rfl, rfl⟩

/-- Witness for C1 at a concrete one-cycle OpenCV run. -/
theorem C1_record_fields_witness :
    (mkRecordCv 0 0 ⟨4, 3, 0⟩).jsonFields.map Prod.fst
        = ["idx", "file", "timestamp_unix", "timestamp_iso", "width", "height"]
    ∧ (mkRecordCv 0 0 ⟨4, 3, 0⟩).timestamp_iso
        = isoOfTimestamp (mkRecordCv 0 0 ⟨4, 3, 0⟩).timestamp_unix
    ∧ (mkRecordCv 0 0 ⟨4, 3, 0⟩).file = "frames/" ++ fname (mkRecordCv 0 0 ⟨4, 3, 0⟩).idx :=
  C1_record_fields 20 4 3 0 ⟨true, 0, [⟨false, 0, some ⟨4, 3, 0⟩, 0⟩]⟩
    (mkRecordCv 0 0 ⟨4, 3, 0⟩)
    (Or.inl (by
      norm_num [opencv_loop, cvLoopAux, recordsOf, exitTail, List.filterMap_cons]))

/-- Counterexample to C1 as stated: the key of the first field is `"idx"`,
not `"index"`, so the record of a concrete one-cycle run does not carry the
claimed field set. -/
theorem C1_counterexample :
    (recordsOf (opencv_loop 20 4 3 0 ⟨true, 0, [⟨false, 0, some ⟨4, 3, 0⟩, 0⟩]⟩).1).map
        (fun r => r.jsonFields.map Prod.fst)
      ≠ [["index", "file", "timestamp_unix", "timestamp_iso", "width", "height"]] := by
  decide

/-- Claim C2, as amended: the camera resource is released exactly on the
exit paths that leave the `while` loop by `break` — duration expiry in both
variants, and capture-read failure in the OpenCV variant (both give a
normal return).  On a `KeyboardInterrupt` (both variants) and on a capture
exception (Picamera2 variant) the release call is skipped. -/
theorem C2_release_paths (fps : ℚ) (w h : Nat) (s : ℚ) (env : Env) :
    ((opencv_loop fps w h s env).2 = .finished →
        Ev.release ∈ (opencv_loop fps w h s env).1)
    ∧ ((picamera2_loop fps w h s env).2 = .finished →
        Ev.release ∈ (picamera2_loop fps w h s env).1)
    ∧ ((opencv_loop fps w h s env).2 = .interrupted →
        Ev.release ∉ (opencv_loop fps w h s env).1)
    ∧ ((picamera2_loop fps w h s env).2 = .interrupted →
        Ev.release ∉ (picamera2_loop fps w h s env).1)
    ∧ ((picamera2_loop fps w h s env).2 = .captureExn →
        Ev.release ∉ (picamera2_loop fps w h s env).1) := by
  refine ⟨?_, ?_, ?_, ?_, ?_⟩
  · intro hfin
    cases hdev : env.deviceOpens with
    | false => rw [opencv_loop_nodev fps w h s env hdev] at hfin ⊢; exact absurd hfin (by simp)
    | true =>
      by_cases hfps : fps = 0
      · rw [opencv_loop_fps0 fps w h s env hdev hfps] at hfin ⊢
        exact absurd hfin (by simp)
      · rw [opencv_loop_eq fps w h s env hdev hfps] at hfin ⊢
        have hx := (exitOutcome_finished _).mp hfin
        exact List.mem_append_right _ ((release_mem_exitTail _).mpr hx)
  · intro hfin
    cases hdev : env.deviceOpens with
    | false =>
      rw [picamera2_loop_nodev fps w h s env hdev] at hfin ⊢
      exact absurd hfin (by simp)
    | true =>
      by_cases hfps : fps = 0
      · rw [picamera2_loop_fps0 fps w h s env hdev hfps] at hfin ⊢
        exact absurd hfin (by simp)
      · rw [picamera2_loop_eq fps w h s env hdev hfps] at hfin ⊢
        have hx := (exitOutcome_finished _).mp hfin
        exact List.mem_append_right _ ((release_mem_exitTail _).mpr hx)
  · intro hint hmem
    cases hdev : env.deviceOpens with
    | false =>
      rw [opencv_loop_nodev fps w h s env hdev] at hint
      exact absurd hint (by simp)
    | true =>
      by_cases hfps : fps = 0
      · rw [opencv_loop_fps0 fps w h s env hdev hfps] at hint
        exact absurd hint (by simp)
      · rw [opencv_loop_eq fps w h s env hdev hfps] at hint hmem
        have hx := (exitOutcome_interrupted _).mp hint
        rcases List.mem_append.mp hmem with hmem | hmem
        · rcases List.mem_append.mp hmem with hmem | hmem
          · simp at hmem
          · exact cvLoopAux_no_release s (1 / fps) env.t0 env.cycles 0 hmem
        · rw [hx] at hmem
          simp [exitTail] at hmem
  · intro hint hmem
    cases hdev : env.deviceOpens with
    | false =>
      rw [picamera2_loop_nodev fps w h s env hdev] at hint
      exact absurd hint (by simp)
    | true =>
      by_cases hfps : fps = 0
      · rw [picamera2_loop_fps0 fps w h s env hdev hfps] at hint
        exact absurd hint (by simp)
      · rw [picamera2_loop_eq fps w h s env hdev hfps] at hint hmem
        have hx := (exitOutcome_interrupted _).mp hint
        rcases List.mem_append.mp hmem with hmem | hmem
        · rcases List.mem_append.mp hmem with hmem | hmem
          · simp at hmem
          · exact piLoopAux_no_release w h s (1 / fps) env.t0 env.cycles 0 hmem
        · rw [hx] at hmem
          simp [exitTail] at hmem
  · intro hexn hmem
    cases hdev : env.deviceOpens with
    | false =>
      rw [picamera2_loop_nodev fps w h s env hdev] at hexn
      exact absurd hexn (by simp)
    | true =>
      by_cases hfps : fps = 0
      · rw [picamera2_loop_fps0 fps w h s env hdev hfps] at hexn
        exact absurd hexn (by simp)
      · rw [picamera2_loop_eq fps w h s env hdev hfps] at hexn hmem
        have hx := (exitOutcome_captureExn _).mp hexn
        rcases List.mem_append.mp hmem with hmem | hmem
        · rcases List.mem_append.mp hmem with hmem | hmem
          · simp at hmem
          · exact piLoopAux_no_release w h s (1 / fps) env.t0 env.cycles 0 hmem
        · rw [hx] at hmem
          simp [exitTail] at hmem

/-- Witness for C2: a run stopped by duration expiry does release. -/
theorem C2_release_paths_witness :
    Ev.release ∈ (opencv_loop 1 4 3 1 ⟨true, 0, [⟨false, 2, some ⟨4, 3, 0⟩, 2⟩]⟩).1 :=
  (C2_release_paths 1 4 3 1 ⟨true, 0, [⟨false, 2, some ⟨4, 3, 0⟩, 2⟩]⟩).1
    (by norm_num [opencv_loop, cvLoopAux, exitOutcome])

/-- Counterexample to C2 as stated: a run interrupted by `KeyboardInterrupt`
finishes normally (the interrupt is caught in `main`), yet the camera is
never released. -/
theorem C2_counterexample :
    (main .opencv 20 4 3 0 ⟨true, 0, [⟨true, 0, none, 0⟩]⟩).2 = .finished
    ∧ Ev.release ∉ (main .opencv 20 4 3 0 ⟨true, 0, [⟨true, 0, none, 0⟩]⟩).1 := by
  decide

/-- Claim C3, as amended: if the camera cannot be opened at start, the error
is surfaced immediately and no frame file and no metadata record has been
written — but the run header (`run_header.json`, written by `main` before
the loop starts) and the output directories already exist at that moment. -/
theorem C3_device_unavailable (b : Backend) (fps : ℚ) (w h : Nat) (s : ℚ) (env : Env)
    (hdev : env.deviceOpens = false) :
    (main b fps w h s env).2 = .deviceUnavailable
    ∧ recordsOf (main b fps w h s env).1 = []
    ∧ frameFilesOf (main b fps w h s env).1 = []
    ∧ Ev.writeHeader ∈ (main b fps w h s env).1 := by
  cases b with
  | picam =>
    simp [main, picamera2_loop_nodev fps w h s env hdev, recordsOf, frameFilesOf]
  | opencv =>
    simp [main, opencv_loop_nodev fps w h s env hdev, recordsOf, frameFilesOf]

/-- Witness for C3 at a concrete device-open failure. -/
theorem C3_device_unavailable_witness :
    (main .opencv 20 1280 720 0 ⟨false, 0, []⟩).2 = .deviceUnavailable
    ∧ recordsOf (main .opencv 20 1280 720 0 ⟨false, 0, []⟩).1 = []
    ∧ frameFilesOf (main .opencv 20 1280 720 0 ⟨false, 0, []⟩).1 = []
    ∧ Ev.writeHeader ∈ (main .opencv 20 1280 720 0 ⟨false, 0, []⟩).1 :=
  C3_device_unavailable .opencv 20 1280 720 0 ⟨false, 0, []⟩ rfl

/-- Counterexample to C3 as stated: at the moment the device-unavailable
error is raised, the output directory is not empty — the run header has
already been written. -/
theorem C3_counterexample :
    (main .opencv 20 1280 720 0 ⟨false, 0, []⟩).2 = .deviceUnavailable
    ∧ fileWrites (main .opencv 20 1280 720 0 ⟨false, 0, []⟩).1 ≠ [] := by
  decide

/-- Claim C4, confirmed: within one run, the k-th successfully saved frame
(counting from 0) carries metadata index k — so indices are strictly
increasing from 0 with no gaps — and its frame file inside `frames/` is
named `pad6 k ++ ".png"` (k zero-padded to 6 digits, starting at `000000`),
with the record's `file` field pointing at `frames/` plus that name, in both
backend variants. -/
theorem C4_indices_files (fps : ℚ) (w h : Nat) (s : ℚ) (env : Env) :
    (∀ (k : Nat) (r : Record),
        (recordsOf (opencv_loop fps w h s env).1).get? k = some r →
        r.idx = k ∧ r.file = "frames/" ++ (pad6 k ++ ".png"))
    ∧ (∀ (k : Nat) (r : Record),
        (recordsOf (picamera2_loop fps w h s env).1).get? k = some r →
        r.idx = k ∧ r.file = "frames/" ++ (pad6 k ++ ".png"))
    ∧ (∀ (k : Nat) (n : String),
        (frameFilesOf (opencv_loop fps w h s env).1).get? k = some n →
        n = pad6 k ++ ".png")
    ∧ (∀ (k : Nat) (n : String),
        (frameFilesOf (picamera2_loop fps w h s env).1).get? k = some n →
        n = pad6 k ++ ".png") := by
  refine ⟨?_, ?_, ?_, ?_⟩
  · intro k r hr
    cases hdev : env.deviceOpens with
    | false =>
      rw [opencv_loop_nodev fps w h s env hdev] at hr
      simp [recordsOf] at hr
    | true =>
      by_cases hfps : fps = 0
      · rw [opencv_loop_fps0 fps w h s env hdev hfps] at hr
        simp [recordsOf] at hr
      · rw [recordsOf_opencv_loop fps w h s env hdev hfps] at hr
        have hk := cvLoopAux_records_get s (1 / fps) env.t0 env.cycles 0 k r hr
        rw [Nat.zero_add] at hk
        exact hk
  · intro k r hr
    cases hdev : env.deviceOpens with
    | false =>
      rw [picamera2_loop_nodev fps w h s env hdev] at hr
      simp [recordsOf] at hr
    | true =>
      by_cases hfps : fps = 0
      · rw [picamera2_loop_fps0 fps w h s env hdev hfps] at hr
        simp [recordsOf] at hr
      · rw [recordsOf_picamera2_loop fps w h s env hdev hfps] at hr
        have hk := piLoopAux_records_get w h s (1 / fps) env.t0 env.cycles 0 k r hr
        rw [Nat.zero_add] at hk
        exact hk
  · intro k n hn
    cases hdev : env.deviceOpens with
    | false =>
      rw [opencv_loop_nodev fps w h s env hdev] at hn
      simp [frameFilesOf] at hn
    | true =>
      by_cases hfps : fps = 0
      · rw [opencv_loop_fps0 fps w h s env hdev hfps] at hn
        simp [frameFilesOf] at hn
      · rw [frameFilesOf_opencv_loop fps w h s env hdev hfps] at hn
        have hk := cvLoopAux_frames_get s (1 / fps) env.t0 env.cycles 0 k n hn
        rw [Nat.zero_add] at hk
        exact hk
  · intro k n hn
    cases hdev : env.deviceOpens with
    | false =>
      rw [picamera2_loop_nodev fps w h s env hdev] at hn
      simp [frameFilesOf] at hn
    | true =>
      by_cases hfps : fps = 0
      · rw [picamera2_loop_fps0 fps w h s env hdev hfps] at hn
        simp [frameFilesOf] at hn
      · rw [frameFilesOf_picamera2_loop fps w h s env hdev hfps] at hn
        have hk := piLoopAux_frames_get w h s (1 / fps) env.t0 env.cycles 0 k n hn
        rw [Nat.zero_add] at hk
        exact hk

/-- Witness for C4 at a concrete one-cycle OpenCV run. -/
theorem C4_indices_files_witness :
    ((mkRecordCv 0 0 ⟨4, 3, 0⟩).idx = 0
      ∧ (mkRecordCv 0 0 ⟨4, 3, 0⟩).file = "frames/" ++ (pad6 0 ++ ".png"))
    ∧ ("000000.png" : String) = pad6 0 ++ ".png" :=
  ⟨(C4_indices_files 20 4 3 0 ⟨true, 0, [⟨false, 0, some ⟨4, 3, 0⟩, 0⟩]⟩).1 0
      (mkRecordCv 0 0 ⟨4, 3, 0⟩)
      (by norm_num [opencv_loop, cvLoopAux, recordsOf, exitTail, List.filterMap_cons]),
   (C4_indices_files 20 4 3 0 ⟨true, 0, [⟨false, 0, some ⟨4, 3, 0⟩, 0⟩]⟩).2.2.1 0
      "000000.png" (by decide)⟩

/-- Claim C5, confirmed: with a positive configured duration, every capture
attempt's cycle-start time is strictly before `t0 + seconds` (the duration
check runs before each capture), and when the loop stops by duration expiry
the time it observes satisfies `t − t0 ≥ seconds`, so the run lasted at
least `seconds`; both backend variants. -/
theorem C5_duration (fps : ℚ) (w h : Nat) (s : ℚ) (env : Env) :
    (0 < s → ∀ t, Ev.captureAttempt t ∈ (opencv_loop fps w h s env).1 →
      t - env.t0 < s)
    ∧ (0 < s → ∀ t, Ev.captureAttempt t ∈ (picamera2_loop fps w h s env).1 →
      t - env.t0 < s)
    ∧ (∀ t, Ev.durationBreak t ∈ (opencv_loop fps w h s env).1 → s ≤ t - env.t0)
    ∧ (∀ t, Ev.durationBreak t ∈ (picamera2_loop fps w h s env).1 → s ≤ t - env.t0) := by
  refine ⟨?_, ?_, ?_, ?_⟩
  · intro hs t ht
    obtain ⟨c, _, hteq, hguard⟩ := attempt_mem_opencv_loop fps w h s env t ht
    rw [hteq]
    by_contra hge
    exact hguard ⟨hs, le_of_not_lt hge⟩
  · intro hs t ht
    obtain ⟨c, _, hteq, hguard⟩ := attempt_mem_picamera2_loop fps w h s env t ht
    rw [hteq]
    by_contra hge
    exact hguard ⟨hs, le_of_not_lt hge⟩
  · intro t ht
    exact (break_mem_opencv_loop fps w h s env t ht).2
  · intro t ht
    exact (break_mem_picamera2_loop fps w h s env t ht).2

/-- Witness for C5: concrete two-cycle run with `seconds = 10`; the capture
at `t = 5` is before expiry and the break observed at `t = 12` is after. -/
theorem C5_duration_witness :
    ((5 : ℚ) - 0 < 10) ∧ ((10 : ℚ) ≤ 12 - 0) :=
  ⟨(C5_duration 20 4 3 10
      ⟨true, 0, [⟨false, 5, some ⟨4, 3, 0⟩, 5⟩, ⟨false, 12, some ⟨4, 3, 0⟩, 12⟩]⟩).1
      (by norm_num) 5
      (by norm_num [opencv_loop, cvLoopAux, exitTail, exitOutcome]),
   (C5_duration 20 4 3 10
      ⟨true, 0, [⟨false, 5, some ⟨4, 3, 0⟩, 5⟩, ⟨false, 12, some ⟨4, 3, 0⟩, 12⟩]⟩).2.2.1 12
      (by norm_num [opencv_loop, cvLoopAux, exitTail, exitOutcome])⟩

/-- Claim C9, confirmed: for every configured duration `seconds ≤ 0` — any
negative value as well as 0 — neither loop variant ever stops due to
duration: the elapsed-duration check is guarded by `seconds > 0`, so no
duration break occurs and the loop-exit is never `brokeDuration`. -/
theorem C9_nonpositive_seconds (fps : ℚ) (w h : Nat) (s : ℚ) (env : Env) (hs : s ≤ 0) :
    (cvLoopAux s (1 / fps) env.t0 0 env.cycles).2 ≠ .brokeDuration
    ∧ (piLoopAux w h s (1 / fps) env.t0 0 env.cycles).2 ≠ .brokeDuration
    ∧ (∀ t, Ev.durationBreak t ∉ (opencv_loop fps w h s env).1)
    ∧ (∀ t, Ev.durationBreak t ∉ (picamera2_loop fps w h s env).1) := by
  refine ⟨cvLoopAux_exit_ne_duration s (1 / fps) env.t0 hs env.cycles 0,
    piLoopAux_exit_ne_duration w h s (1 / fps) env.t0 hs env.cycles 0, ?_, ?_⟩
  · intro t ht
    have := (break_mem_opencv_loop fps w h s env t ht).1
    linarith
  · intro t ht
    have := (break_mem_picamera2_loop fps w h s env t ht).1
    linarith

/-- Witness for C9 at `seconds = -1` with a late cycle. -/
theorem C9_nonpositive_seconds_witness :
    (cvLoopAux (-1) (1 / 20) 0 0 [⟨false, 100, some ⟨4, 3, 0⟩, 100⟩]).2 ≠ .brokeDuration
    ∧ (piLoopAux 4 3 (-1) (1 / 20) 0 0 [⟨false, 100, some ⟨4, 3, 0⟩, 100⟩]).2 ≠ .brokeDuration
    ∧ Ev.durationBreak 100
        ∉ (opencv_loop 20 4 3 (-1) ⟨true, 0, [⟨false, 100, some ⟨4, 3, 0⟩, 100⟩]⟩).1
    ∧ Ev.durationBreak 100
        ∉ (picamera2_loop 20 4 3 (-1) ⟨true, 0, [⟨false, 100, some ⟨4, 3, 0⟩, 100⟩]⟩).1 :=
  ⟨(C9_nonpositive_seconds 20 4 3 (-1) ⟨true, 0, [⟨false, 100, some ⟨4, 3, 0⟩, 100⟩]⟩
      (by norm_num)).1,
   (C9_nonpositive_seconds 20 4 3 (-1) ⟨true, 0, [⟨false, 100, some ⟨4, 3, 0⟩, 100⟩]⟩
      (by norm_num)).2.1,
   (C9_nonpositive_seconds 20 4 3 (-1) ⟨true, 0, [⟨false, 100, some ⟨4, 3, 0⟩, 100⟩]⟩
      (by norm_num)).2.2.1 100,
   (C9_nonpositive_seconds 20 4 3 (-1) ⟨true, 0, [⟨false, 100, some ⟨4, 3, 0⟩, 100⟩]⟩
      (by norm_num)).2.2.2 100⟩

/-- Claim C10, confirmed: with `fps = 0` both loop variants fail with a
division-by-zero error at `period = 1.0 / fps`, after the camera has been
opened/started but before the metadata log is opened and before any frame
file or metadata record is written. -/
theorem C10_fps_zero (w h : Nat) (s : ℚ) (env : Env) (hdev : env.deviceOpens = true) :
    opencv_loop 0 w h s env
        = ([.ensureDir "frames", .openCamera, .requestResolution w h], .divByZero)
    ∧ picamera2_loop 0 w h s env = ([.ensureDir "frames", .openCamera], .divByZero)
    ∧ recordsOf (opencv_loop 0 w h s env).1 = []
    ∧ frameFilesOf (opencv_loop 0 w h s env).1 = []
    ∧ recordsOf (picamera2_loop 0 w h s env).1 = []
    ∧ frameFilesOf (picamera2_loop 0 w h s env).1 = [] := by
  have e1 := opencv_loop_fps0 0 w h s env hdev rfl
  have e2 := picamera2_loop_fps0 0 w h s env hdev rfl
  refine ⟨e1, e2, ?_, ?_, ?_, ?_⟩
  · rw [e1]; rfl
  · rw [e1]; rfl
  · rw [e2]; rfl
  · rw [e2]; rfl

/-- Claim C6, confirmed: in every successfully completed cycle of both loop
variants, the loop saves the frame, appends the metadata record, flushes,
and then sleeps for exactly `max 0 (period − elapsed_this_cycle)` with
`period = 1/fps` and `elapsed_this_cycle = tAfter − t`; when the per-cycle
work reaches or exceeds the period that sleep is zero, and the loop
continues directly with the next index (no frame is skipped). -/
theorem C6_rate_control (fps : ℚ) (w h : Nat) (s t0 : ℚ) (i : Nat) (c : Cycle)
    (rest : List Cycle) (fr : Frame) (h1 : c.interrupt = false)
    (h2 : ¬(0 < s ∧ c.t - t0 ≥ s)) (h3 : c.capture = some fr) :
    cvLoopAux s (1 / fps) t0 i (c :: rest)
      = (cycleEvsCv (1 / fps) i c fr ++ (cvLoopAux s (1 / fps) t0 (i + 1) rest).1,
         (cvLoopAux s (1 / fps) t0 (i + 1) rest).2)
    ∧ piLoopAux w h s (1 / fps) t0 i (c :: rest)
      = (cycleEvsPi w h (1 / fps) i c ++ (piLoopAux w h s (1 / fps) t0 (i + 1) rest).1,
         (piLoopAux w h s (1 / fps) t0 (i + 1) rest).2)
    ∧ (1 / fps ≤ c.tAfter - c.t → max 0 (1 / fps - (c.tAfter - c.t)) = 0) :=
  ⟨cvLoopAux_cons_good s (1 / fps) t0 i c rest fr h1 h2 h3,
   piLoopAux_cons_good w h s (1 / fps) t0 i c rest fr h1 h2 h3,
   fun hle => max_eq_left (by linarith)⟩

/-- Witness for C6 at `fps = 1` and a cycle whose work (2 time units)
exceeds the period, so the sleep is zero. -/
theorem C6_rate_control_witness :
    cvLoopAux 0 (1 / 1) 0 0 [⟨false, 0, some ⟨1, 1, 0⟩, 2⟩]
      = (cycleEvsCv (1 / 1) 0 ⟨false, 0, some ⟨1, 1, 0⟩, 2⟩ ⟨1, 1, 0⟩
           ++ (cvLoopAux 0 (1 / 1) 0 1 []).1,
         (cvLoopAux 0 (1 / 1) 0 1 []).2)
    ∧ piLoopAux 4 3 0 (1 / 1) 0 0 [⟨false, 0, some ⟨1, 1, 0⟩, 2⟩]
      = (cycleEvsPi 4 3 (1 / 1) 0 ⟨false, 0, some ⟨1, 1, 0⟩, 2⟩
           ++ (piLoopAux 4 3 0 (1 / 1) 0 1 []).1,
         (piLoopAux 4 3 0 (1 / 1) 0 1 []).2)
    ∧ ((1 : ℚ) / 1 ≤ 2 - 0 → max 0 (1 / 1 - ((2 : ℚ) - 0)) = 0) :=
  C6_rate_control 1 4 3 0 0 0 ⟨false, 0, some ⟨1, 1, 0⟩, 2⟩ [] ⟨1, 1, 0⟩
    rfl (by decide) rfl

/-- Claim C8, confirmed: the metadata log is opened in append mode, so a run
into a directory whose log already holds lines `prior` leaves them unchanged
and only appends the run's own records after them; and every appended record
is flushed immediately after its write, before the cycle's sleep. -/
theorem C8_append_flush (fps : ℚ) (w h : Nat) (s : ℚ) (env : Env)
    (prior : List String) :
    metaLines prior (opencv_loop fps w h s env).1
        = prior ++ (recordsOf (opencv_loop fps w h s env).1).map renderRecord
    ∧ metaLines prior (picamera2_loop fps w h s env).1
        = prior ++ (recordsOf (picamera2_loop fps w h s env).1).map renderRecord
    ∧ flushFollowsWrite (opencv_loop fps w h s env).1 = true
    ∧ flushFollowsWrite (picamera2_loop fps w h s env).1 = true := by
  refine ⟨?_, ?_, ?_, ?_⟩
  · cases hdev : env.deviceOpens with
    | false =>
      rw [opencv_loop_nodev fps w h s env hdev]
      simp [metaLines, metaStep, recordsOf]
    | true =>
      by_cases hfps : fps = 0
      · rw [opencv_loop_fps0 fps w h s env hdev hfps]
        simp [metaLines, metaStep, recordsOf]
      · rw [opencv_loop_eq fps w h s env hdev hfps]
        have hpre : List.foldl metaStep prior
            [Ev.ensureDir "frames", Ev.openCamera, Ev.requestResolution w h,
              Ev.openMeta "a"] = prior := rfl
        rw [metaLines, List.foldl_append, List.foldl_append, hpre,
          cvLoopAux_foldl_meta s (1 / fps) env.t0 env.cycles 0,
          foldl_metaStep_exitTail, recordsOf_append, recordsOf_append,
          recordsOf_exitTail]
        simp [recordsOf]
  · cases hdev : env.deviceOpens with
    | false =>
      rw [picamera2_loop_nodev fps w h s env hdev]
      simp [metaLines, metaStep, recordsOf]
    | true =>
      by_cases hfps : fps = 0
      · rw [picamera2_loop_fps0 fps w h s env hdev hfps]
        simp [metaLines, metaStep, recordsOf]
      · rw [picamera2_loop_eq fps w h s env hdev hfps]
        have hpre : List.foldl metaStep prior
            [Ev.ensureDir "frames", Ev.openCamera, Ev.openMeta "a"] = prior := rfl
        rw [metaLines, List.foldl_append, List.foldl_append, hpre,
          piLoopAux_foldl_meta w h s (1 / fps) env.t0 env.cycles 0,
          foldl_metaStep_exitTail, recordsOf_append, recordsOf_append,
          recordsOf_exitTail]
        simp [recordsOf]
  · cases hdev : env.deviceOpens with
    | false => rw [opencv_loop_nodev fps w h s env hdev]; rfl
    | true =>
      by_cases hfps : fps = 0
      · rw [opencv_loop_fps0 fps w h s env hdev hfps]; rfl
      · have hffw : ∀ X : List Ev, flushFollowsWrite
            ([Ev.ensureDir "frames", Ev.openCamera, Ev.requestResolution w h,
              Ev.openMeta "a"] ++ X) = flushFollowsWrite X := fun X => rfl
        rw [opencv_loop_eq fps w h s env hdev hfps]
        show flushFollowsWrite _ = true
        rw [List.append_assoc, hffw, cvLoopAux_ffw s (1 / fps) env.t0 env.cycles 0,
          ffw_exitTail]
  · cases hdev : env.deviceOpens with
    | false => rw [picamera2_loop_nodev fps w h s env hdev]; rfl
    | true =>
      by_cases hfps : fps = 0
      · rw [picamera2_loop_fps0 fps w h s env hdev hfps]; rfl
      · have hffw : ∀ X : List Ev, flushFollowsWrite
            ([Ev.ensureDir "frames", Ev.openCamera, Ev.openMeta "a"] ++ X)
              = flushFollowsWrite X := fun X => rfl
        rw [picamera2_loop_eq fps w h s env hdev hfps]
        show flushFollowsWrite _ = true
        rw [List.append_assoc, hffw, piLoopAux_ffw w h s (1 / fps) env.t0 env.cycles 0,
          ffw_exitTail]

/-- Claim C7, as amended: in the OpenCV variant a failed read from the
already-open device logs the diagnostic, writes no record or frame file for
the failed capture, breaks out of the loop without raising (normal return,
camera released), keeps all records of the prior cycles (indices
`0 .. k−1`), and is never retried (exactly one attempt per prior cycle plus
the failed one, nothing afterwards).  In the Picamera2 variant a capture
failure instead raises an exception that propagates to the caller, with no
diagnostic and without releasing the camera. -/
theorem C7_capture_failure (fps : ℚ) (w h : Nat) (s : ℚ) (env : Env)
    (goods rest : List Cycle) (fc : Cycle)
    (hdev : env.deviceOpens = true) (hcyc : env.cycles = goods ++ fc :: rest)
    (hfps : fps ≠ 0) (hg : ∀ c ∈ goods, goodCycle s env.t0 c)
    (hf1 : fc.interrupt = false) (hf2 : ¬(0 < s ∧ fc.t - env.t0 ≥ s))
    (hf3 : fc.capture = none) :
    (opencv_loop fps w h s env).2 = .finished
    ∧ Ev.log "Frame read failed, stopping." ∈ (opencv_loop fps w h s env).1
    ∧ (recordsOf (opencv_loop fps w h s env).1).map Record.idx
        = List.range goods.length
    ∧ (frameFilesOf (opencv_loop fps w h s env).1).length = goods.length
    ∧ attemptsOf (opencv_loop fps w h s env).1 = goods.map Cycle.t ++ [fc.t]
    ∧ Ev.release ∈ (opencv_loop fps w h s env).1
    ∧ (picamera2_loop fps w h s env).2 = .captureExn
    ∧ Ev.release ∉ (picamera2_loop fps w h s env).1 := by
  have hcv : cvLoopAux s (1 / fps) env.t0 0 env.cycles
      = (goodsEvsCv (1 / fps) 0 goods
           ++ [Ev.captureAttempt fc.t, Ev.log "Frame read failed, stopping."],
         .brokeCapture) := by
    rw [hcyc, cvLoopAux_goods s (1 / fps) env.t0 goods 0 (fc :: rest) hg,
      cvLoopAux_cons_fail s (1 / fps) env.t0 (0 + goods.length) fc rest hf1 hf2 hf3]
  have hpi : piLoopAux w h s (1 / fps) env.t0 0 env.cycles
      = (goodsEvsPi w h (1 / fps) 0 goods ++ [Ev.captureAttempt fc.t], .captureExn) := by
    rw [hcyc, piLoopAux_goods w h s (1 / fps) env.t0 goods 0 (fc :: rest) hg,
      piLoopAux_cons_fail w h s (1 / fps) env.t0 (0 + goods.length) fc rest hf1 hf2 hf3]
  refine ⟨?_, ?_, ?_, ?_, ?_, ?_, ?_, ?_⟩
  · rw [opencv_loop_eq fps w h s env hdev hfps, hcv]; rfl
  · rw [opencv_loop_eq fps w h s env hdev hfps, hcv]
    simp [exitTail]
  · rw [recordsOf_opencv_loop fps w h s env hdev hfps, hcv]
    show (recordsOf (goodsEvsCv (1 / fps) 0 goods ++ _)).map Record.idx = _
    rw [recordsOf_append]
    have h2 : recordsOf
        [Ev.captureAttempt fc.t, Ev.log "Frame read failed, stopping."] = [] := rfl
    rw [h2, List.append_nil, recordsOf_goodsEvsCv_idx, List.range_eq_range']
  · rw [frameFilesOf_opencv_loop fps w h s env hdev hfps, hcv]
    show (frameFilesOf (goodsEvsCv (1 / fps) 0 goods ++ _)).length = _
    rw [frameFilesOf_append]
    have h2 : frameFilesOf
        [Ev.captureAttempt fc.t, Ev.log "Frame read failed, stopping."] = [] := rfl
    rw [h2, List.append_nil, frameFilesOf_goodsEvsCv]
    simp
  · rw [attemptsOf_opencv_loop fps w h s env hdev hfps, hcv]
    show attemptsOf (goodsEvsCv (1 / fps) 0 goods ++ _) = _
    rw [attemptsOf_append, attemptsOf_goodsEvsCv]
    rfl
  · rw [opencv_loop_eq fps w h s env hdev hfps, hcv]
    simp [exitTail]
  · rw [picamera2_loop_eq fps w h s env hdev hfps, hpi]; rfl
  · intro hmem
    rw [picamera2_loop_eq fps w h s env hdev hfps] at hmem
    rcases List.mem_append.mp hmem with hmem | hmem
    · rcases List.mem_append.mp hmem with hmem | hmem
      · simp at hmem
      · exact piLoopAux_no_release w h s (1 / fps) env.t0 env.cycles 0 hmem
    · rw [hpi] at hmem
      simp [exitTail] at hmem

/-- Witness for C7: the synthetic source fails on its 3rd call; the OpenCV
run keeps exactly the records of indices 0 and 1 and finishes normally, the
Picamera2 run propagates the exception without releasing. -/
theorem C7_capture_failure_witness :
    (opencv_loop 20 4 3 0 ⟨true, 0, [⟨false, 0, some ⟨4, 3, 0⟩, 0⟩,
        ⟨false, 1, some ⟨4, 3, 0⟩, 1⟩, ⟨false, 2, none, 2⟩]⟩).2 = .finished
    ∧ Ev.log "Frame read failed, stopping."
        ∈ (opencv_loop 20 4 3 0 ⟨true, 0, [⟨false, 0, some ⟨4, 3, 0⟩, 0⟩,
            ⟨false, 1, some ⟨4, 3, 0⟩, 1⟩, ⟨false, 2, none, 2⟩]⟩).1
    ∧ (recordsOf (opencv_loop 20 4 3 0 ⟨true, 0, [⟨false, 0, some ⟨4, 3, 0⟩, 0⟩,
        ⟨false, 1, some ⟨4, 3, 0⟩, 1⟩, ⟨false, 2, none, 2⟩]⟩).1).map Record.idx
        = List.range 2
    ∧ (frameFilesOf (opencv_loop 20 4 3 0 ⟨true, 0, [⟨false, 0, some ⟨4, 3, 0⟩, 0⟩,
        ⟨false, 1, some ⟨4, 3, 0⟩, 1⟩, ⟨false, 2, none, 2⟩]⟩).1).length = 2
    ∧ attemptsOf (opencv_loop 20 4 3 0 ⟨true, 0, [⟨false, 0, some ⟨4, 3, 0⟩, 0⟩,
        ⟨false, 1, some ⟨4, 3, 0⟩, 1⟩, ⟨false, 2, none, 2⟩]⟩).1 = [0, 1, 2]
    ∧ Ev.release ∈ (opencv_loop 20 4 3 0 ⟨true, 0, [⟨false, 0, some ⟨4, 3, 0⟩, 0⟩,
        ⟨false, 1, some ⟨4, 3, 0⟩, 1⟩, ⟨false, 2, none, 2⟩]⟩).1
    ∧ (picamera2_loop 20 4 3 0 ⟨true, 0, [⟨false, 0, some ⟨4, 3, 0⟩, 0⟩,
        ⟨false, 1, some ⟨4, 3, 0⟩, 1⟩, ⟨false, 2, none, 2⟩]⟩).2 = .captureExn
    ∧ Ev.release ∉ (picamera2_loop 20 4 3 0 ⟨true, 0, [⟨false, 0, some ⟨4, 3, 0⟩, 0⟩,
        ⟨false, 1, some ⟨4, 3, 0⟩, 1⟩, ⟨false, 2, none, 2⟩]⟩).1 :=
  C7_capture_failure 20 4 3 0
    ⟨true, 0, [⟨false, 0, some ⟨4, 3, 0⟩, 0⟩, ⟨false, 1, some ⟨4, 3, 0⟩, 1⟩,
      ⟨false, 2, none, 2⟩]⟩
    [⟨false, 0, some ⟨4, 3, 0⟩, 0⟩, ⟨false, 1, some ⟨4, 3, 0⟩, 1⟩] []
    ⟨false, 2, none, 2⟩ rfl rfl (by norm_num) (by decide) rfl (by decide) rfl

/-- Counterexample to C7 as stated: in the Picamera2 variant the very same
fail-on-3rd-call scenario does not stop gracefully — the loop function ends
with a propagating capture exception and the camera is never released. -/
theorem C7_counterexample :
    (picamera2_loop 20 4 3 0 ⟨true, 0, [⟨false, 0, some ⟨4, 3, 0⟩, 0⟩,
        ⟨false, 1, some ⟨4, 3, 0⟩, 1⟩, ⟨false, 2, none, 2⟩]⟩).2 = .captureExn
    ∧ Ev.release ∉ (picamera2_loop 20 4 3 0 ⟨true, 0, [⟨false, 0, some ⟨4, 3, 0⟩, 0⟩,
        ⟨false, 1, some ⟨4, 3, 0⟩, 1⟩, ⟨false, 2, none, 2⟩]⟩).1 := by
  decide

/-- Witness for C10 at a concrete environment. -/
theorem C10_fps_zero_witness :
    opencv_loop 0 4 3 0 ⟨true, 0, []⟩
        = ([.ensureDir "frames", .openCamera, .requestResolution 4 3], .divByZero)
    ∧ picamera2_loop 0 4 3 0 ⟨true, 0, []⟩
        = ([.ensureDir "frames", .openCamera], .divByZero)
    ∧ recordsOf (opencv_loop 0 4 3 0 ⟨true, 0, []⟩).1 = []
    ∧ frameFilesOf (opencv_loop 0 4 3 0 ⟨true, 0, []⟩).1 = []
    ∧ recordsOf (picamera2_loop 0 4 3 0 ⟨true, 0, []⟩).1 = []
    ∧ frameFilesOf (picamera2_loop 0 4 3 0 ⟨true, 0, []⟩).1 = [] :=
  C10_fps_zero 4 3 0 ⟨true, 0, []⟩ rfl

end PicTake
